import Mathlib

set_option maxRecDepth 40000

/-!
Verification of the simple-expression-engine repository.

The development embeds the source modules shallowly:

* `date-utils` (parseDate, formatDate, addToDate) over a model of JavaScript
  `Date` values restricted to calendar dates: a date is its day number
  (days since 1970-01-01, UTC).  The UTC accessors and setters follow the
  ECMAScript specification (`MakeDay`, `YearFromTime`, `MonthFromTime`,
  `DateFromTime`); time-of-day is dropped, matching the repository's
  calendar-date-only use of `Date`.
* `tokenizer`, `parser`, `evaluator`, `variable-resolver`, `engine`
  as executable Lean functions over `String` / `List Char`.
-/

/-! ## Calendar model (ECMAScript UTC date semantics, day granularity) -/

/-- A civil (proleptic Gregorian) calendar date: year, 1-based month, day. -/
structure CivilDate where
  year : Int
  month : Nat
  day : Nat
deriving DecidableEq

/-- Gregorian leap-year predicate (ES `InLeapYear`, `Date.UTC` semantics). -/
def isLeap (y : Int) : Bool :=
  y % 4 == 0 && (y % 100 != 0 || y % 400 == 0)

/-- Number of days in month `m` (1-based) of year `y`. -/
def daysInMonth (y : Int) (m : Nat) : Nat :=
  if m = 2 then (if isLeap y then 29 else 28)
  else if m = 4 ∨ m = 6 ∨ m = 9 ∨ m = 11 then 30
  else 31

/-- Day number (days since 1970-01-01) of the civil date `(y, m, d)` for a
1-based in-range month; days-of-month beyond the month length denote the
correspondingly later day, as in ES `MakeDay`. -/
def dayFromCivil (y : Int) (m d : Nat) : Int :=
  let yy : Int := if m ≤ 2 then y - 1 else y
  let era : Int := yy / 400
  let yoe : Nat := (yy - 400 * era).toNat
  let mp : Nat := if 2 < m then m - 3 else m + 9
  let doy : Nat := (153 * mp + 2) / 5 + d - 1
  era * 146097 + (365 * yoe + yoe / 4 - yoe / 100 + doy : Nat) - 719468

/-- Civil date of a day number: ES `YearFromTime` / `MonthFromTime` /
`DateFromTime` combined, computed by a 400-year-era cascade. -/
def civilFromDay (z : Int) : CivilDate :=
  let era : Int := (z + 719468) / 146097
  let doe : Nat := (z + 719468 - 146097 * era).toNat
  let c : Nat := min (doe / 36524) 3
  let doc : Nat := doe - 36524 * c
  let q : Nat := doc / 1461
  let doq : Nat := doc - 1461 * q
  let yq : Nat := min (doq / 365) 3
  let doy : Nat := doq - 365 * yq
  let mp : Nat := (5 * doy + 2) / 153
  let dF : Nat := doy - (153 * mp + 2) / 5 + 1
  let mF : Nat := if mp < 10 then mp + 3 else mp - 9
  ⟨era * 400 + (100 * c + 4 * q + yq : Nat) + (if mF ≤ 2 then 1 else 0), mF, dF⟩

theorem daysInMonth_le31 (y : Int) (m : Nat) : daysInMonth y m ≤ 31 := by
  unfold daysInMonth
  split <;> [split <;> omega; split <;> omega]

theorem daysInMonth_ge28 (y : Int) (m : Nat) : 28 ≤ daysInMonth y m := by
  unfold daysInMonth
  split <;> [split <;> omega; split <;> omega]

theorem isLeap_iff (y : Int) :
    isLeap y = true ↔ (y % 4 = 0 ∧ (y % 100 ≠ 0 ∨ y % 400 = 0)) := by
  simp [isLeap]

/-- Evaluation of `civilFromDay` on a day number presented by era,
century-of-era, quadrennium, year-of-quadrennium and day-of-year. -/
theorem civilFromDay_spec (Z E : Int) (c q yq doy : Nat) (Y : Int) (mF dF : Nat)
    (hc : c ≤ 3) (hq : q ≤ 24) (hyq : yq ≤ 3) (h365 : doy ≤ 365)
    (hleap : doy ≤ 364 ∨ (yq = 3 ∧ (q ≠ 24 ∨ c = 3)))
    (hZ : Z = E * 146097 + (36524 * c + 1461 * q + 365 * yq + doy : Nat) - 719468)
    (hm : mF = if (5 * doy + 2) / 153 < 10 then (5 * doy + 2) / 153 + 3
               else (5 * doy + 2) / 153 - 9)
    (hd : dF = doy - (153 * ((5 * doy + 2) / 153) + 2) / 5 + 1)
    (hY : Y = E * 400 + (100 * c + 4 * q + yq : Nat) + (if mF ≤ 2 then 1 else 0)) :
    civilFromDay Z = ⟨Y, mF, dF⟩ := by
  have hD : (36524 * c + 1461 * q + 365 * yq + doy : Nat) ≤ 146096 := by omega
  simp only [civilFromDay]
  rw [show Z + 719468 = E * 146097 + ((36524 * c + 1461 * q + 365 * yq + doy : Nat) : Int) by omega]
  rw [show (E * 146097 + ((36524 * c + 1461 * q + 365 * yq + doy : Nat) : Int)) / 146097 = E by omega]
  rw [show (E * 146097 + ((36524 * c + 1461 * q + 365 * yq + doy : Nat) : Int) - 146097 * E).toNat
        = (36524 * c + 1461 * q + 365 * yq + doy : Nat) by omega]
  rw [show min ((36524 * c + 1461 * q + 365 * yq + doy : Nat) / 36524) 3 = c by omega]
  rw [show ((36524 * c + 1461 * q + 365 * yq + doy : Nat) - 36524 * c) / 1461 = q by omega]
  rw [show min (((36524 * c + 1461 * q + 365 * yq + doy : Nat) - 36524 * c - 1461 * q) / 365) 3
        = yq by omega]
  rw [show (36524 * c + 1461 * q + 365 * yq + doy : Nat) - 36524 * c - 1461 * q - 365 * yq
        = doy by omega]
  rw [← hm, ← hd, CivilDate.mk.injEq]
  exact ⟨by omega, rfl, rfl⟩

/-- `daysInMonth` hypotheses in arithmetic form. -/
theorem daysInMonth_cases (y : Int) (m d : Nat) (hd2 : d ≤ daysInMonth y m) :
    d ≤ 31 ∧
    (m = 2 → ((y % 4 = 0 ∧ (y % 100 ≠ 0 ∨ y % 400 = 0)) ∧ d ≤ 29 ∨
              ¬(y % 4 = 0 ∧ (y % 100 ≠ 0 ∨ y % 400 = 0)) ∧ d ≤ 28)) ∧
    (m = 4 ∨ m = 6 ∨ m = 9 ∨ m = 11 → d ≤ 30) := by
  have hleapy := isLeap_iff y
  unfold daysInMonth at hd2
  cases hb : isLeap y
  case false =>
    rw [hb] at hd2 hleapy
    have hnP : ¬(y % 4 = 0 ∧ (y % 100 ≠ 0 ∨ y % 400 = 0)) := fun hp =>
      absurd (hleapy.mpr hp) (by decide)
    rw [if_neg (by decide : ¬ (false = true))] at hd2
    split_ifs at hd2 <;> exact ⟨by omega, fun h2 => Or.inr ⟨hnP, by omega⟩, fun h4 => by omega⟩
  case true =>
    rw [hb] at hd2 hleapy
    have hP : y % 4 = 0 ∧ (y % 100 ≠ 0 ∨ y % 400 = 0) := hleapy.mp rfl
    rw [if_pos (by decide : true = true)] at hd2
    split_ifs at hd2 <;> exact ⟨by omega, fun h2 => Or.inl ⟨hP, by omega⟩, fun h4 => by omega⟩

/-- Round trip: `civilFromDay` inverts `dayFromCivil` on valid civil dates. -/
theorem civil_roundtrip (y : Int) (m d : Nat) (hm1 : 1 ≤ m) (hm2 : m ≤ 12)
    (hd1 : 1 ≤ d) (hd2 : d ≤ daysInMonth y m) :
    civilFromDay (dayFromCivil y m d) = ⟨y, m, d⟩ := by
  obtain ⟨h31, hfeb, h30⟩ := daysInMonth_cases y m d hd2
  simp only [dayFromCivil]
  rcases le_or_lt m 2 with hm0 | hm0
  · simp only [if_pos hm0, if_neg (show ¬ 2 < m by omega)]
    have hE : 0 ≤ (y - 1) - 400 * ((y - 1) / 400) ∧ (y - 1) - 400 * ((y - 1) / 400) ≤ 399 := by
      omega
    refine civilFromDay_spec _ ((y - 1) / 400)
      (((y - 1) - 400 * ((y - 1) / 400)).toNat / 100)
      (((y - 1) - 400 * ((y - 1) / 400)).toNat % 100 / 4)
      (((y - 1) - 400 * ((y - 1) / 400)).toNat % 4)
      ((153 * (m + 9) + 2) / 5 + d - 1) _ _ _
      (by omega) (by omega) (by omega) (by omega) (by omega) (by omega) ?_ ?_ ?_
    · rw [show (5 * ((153 * (m + 9) + 2) / 5 + d - 1) + 2) / 153 = m + 9 by omega,
         if_neg (show ¬ m + 9 < 10 by omega)]
      omega
    · rw [show (5 * ((153 * (m + 9) + 2) / 5 + d - 1) + 2) / 153 = m + 9 by omega]
      omega
    · rw [if_pos hm0]
      omega
  · simp only [if_neg (show ¬ m ≤ 2 by omega), if_pos hm0]
    have hE : 0 ≤ y - 400 * (y / 400) ∧ y - 400 * (y / 400) ≤ 399 := by omega
    refine civilFromDay_spec _ (y / 400)
      ((y - 400 * (y / 400)).toNat / 100)
      ((y - 400 * (y / 400)).toNat % 100 / 4)
      ((y - 400 * (y / 400)).toNat % 4)
      ((153 * (m - 3) + 2) / 5 + d - 1) _ _ _
      (by omega) (by omega) (by omega) (by omega) (by omega) (by omega) ?_ ?_ ?_
    · rw [show (5 * ((153 * (m - 3) + 2) / 5 + d - 1) + 2) / 153 = m - 3 by
           interval_cases m <;> omega,
         if_pos (show m - 3 < 10 by omega)]
      omega
    · rw [show (5 * ((153 * (m - 3) + 2) / 5 + d - 1) + 2) / 153 = m - 3 by
           interval_cases m <;> omega]
      omega
    · rw [if_neg (show ¬ m ≤ 2 by omega)]
      omega

/-- First-of-month day numbers of consecutive months differ by the month length. -/
theorem dayFromCivil_add_month (y : Int) (m : Nat) (hm1 : 1 ≤ m) (hm2 : m ≤ 12) :
    dayFromCivil y m 1 + (daysInMonth y m : Int)
      = if m = 12 then dayFromCivil (y + 1) 1 1 else dayFromCivil y (m + 1) 1 := by
  by_cases hP : y % 4 = 0 ∧ (y % 100 ≠ 0 ∨ y % 400 = 0)
  · have hb : isLeap y = true := (isLeap_iff y).mpr hP
    interval_cases m <;> simp [dayFromCivil, daysInMonth, hb] <;> omega
  · have hb : isLeap y = false := by
      cases hx : isLeap y
      · rfl
      · exact absurd ((isLeap_iff y).mp hx) hP
    interval_cases m <;> simp [dayFromCivil, daysInMonth, hb] <;> omega

/-! ## JS `Date` UTC accessors and setters (ES semantics, day granularity) -/

/-- ES `YearFromTime` (UTC). -/
def getUTCFullYear (z : Int) : Int := (civilFromDay z).year

/-- ES `MonthFromTime` (UTC): 0-based month as in JS. -/
def getUTCMonth (z : Int) : Nat := (civilFromDay z).month - 1

/-- ES `DateFromTime` (UTC): day of month. -/
def getUTCDate (z : Int) : Nat := (civilFromDay z).day

/-- ES `MakeDay`: year, 0-based month (any integer) and day-of-month (any
integer), normalized. -/
def jsMakeDay (y mon dt : Int) : Int :=
  dayFromCivil (y + mon / 12) ((mon % 12).toNat + 1) 1 + dt - 1

/-- `Date.prototype.setUTCDate`. -/
def setUTCDate (z dt : Int) : Int :=
  jsMakeDay (civilFromDay z).year (((civilFromDay z).month : Int) - 1) dt

/-- `Date.prototype.setUTCMonth`. -/
def setUTCMonth (z mon : Int) : Int :=
  jsMakeDay (civilFromDay z).year mon ((civilFromDay z).day : Int)

/-- `Date.prototype.setUTCFullYear`. -/
def setUTCFullYear (z y2 : Int) : Int :=
  jsMakeDay y2 (((civilFromDay z).month : Int) - 1) ((civilFromDay z).day : Int)

/-! ## Source `types.ts`: `TimeUnit` and `Operator` -/

/-- `type TimeUnit` from `src/types.ts`. -/
inductive TimeUnit
  | day | days | week | weeks | month | months | year | years
deriving DecidableEq

/-- `type Operator` from `src/types.ts`. -/
inductive Operator
  | plus | minus
deriving DecidableEq

/-! ## Source `date-utils.ts`: `addToDate` -/

/-- `addToDate` from `src/date-utils.ts` (lines 82-126): calendar arithmetic
with month-end clamping, acting on the day-number model of `Date`. -/
def addToDate (date : Int) (amount : Int) (unit : TimeUnit) (operator : Operator) : Int :=
  let multiplier : Int := match operator with
    | .plus => 1
    | .minus => -1
  let actualAmount := amount * multiplier
  match unit with
  | .day | .days =>
      setUTCDate date ((getUTCDate date : Int) + actualAmount)
  | .week | .weeks =>
      setUTCDate date ((getUTCDate date : Int) + actualAmount * 7)
  | .month | .months =>
      let originalDay := getUTCDate date
      let r := setUTCMonth date ((getUTCMonth date : Int) + actualAmount)
      if getUTCDate r ≠ originalDay then setUTCDate r 0 else r
  | .year | .years =>
      let originalDay := getUTCDate date
      let r := setUTCFullYear date (getUTCFullYear date + actualAmount)
      if getUTCDate r ≠ originalDay then setUTCDate r 0 else r

/-! ## Lemmas about the setters on valid civil dates -/

theorem dayFromCivil_day (y : Int) (m d : Nat) (hd : 1 ≤ d) :
    dayFromCivil y m d = dayFromCivil y m 1 + (d : Int) - 1 := by
  simp only [dayFromCivil]
  omega

theorem jsMakeDay_inrange (y : Int) (m : Nat) (hm1 : 1 ≤ m) (hm2 : m ≤ 12) (dt : Int) :
    jsMakeDay y ((m : Int) - 1) dt = dayFromCivil y m 1 + dt - 1 := by
  unfold jsMakeDay
  rw [show y + ((m : Int) - 1) / 12 = y by omega,
      show ((((m : Int) - 1) % 12).toNat + 1) = m by omega]

theorem getUTCDate_valid (y : Int) (m d : Nat) (hm1 : 1 ≤ m) (hm2 : m ≤ 12)
    (hd1 : 1 ≤ d) (hd2 : d ≤ daysInMonth y m) :
    getUTCDate (dayFromCivil y m d) = d := by
  simp [getUTCDate, civil_roundtrip y m d hm1 hm2 hd1 hd2]

theorem getUTCMonth_valid (y : Int) (m d : Nat) (hm1 : 1 ≤ m) (hm2 : m ≤ 12)
    (hd1 : 1 ≤ d) (hd2 : d ≤ daysInMonth y m) :
    getUTCMonth (dayFromCivil y m d) = m - 1 := by
  simp [getUTCMonth, civil_roundtrip y m d hm1 hm2 hd1 hd2]

theorem getUTCFullYear_valid (y : Int) (m d : Nat) (hm1 : 1 ≤ m) (hm2 : m ≤ 12)
    (hd1 : 1 ≤ d) (hd2 : d ≤ daysInMonth y m) :
    getUTCFullYear (dayFromCivil y m d) = y := by
  simp [getUTCFullYear, civil_roundtrip y m d hm1 hm2 hd1 hd2]

theorem setUTCDate_valid (y : Int) (m d : Nat) (hm1 : 1 ≤ m) (hm2 : m ≤ 12)
    (hd1 : 1 ≤ d) (hd2 : d ≤ daysInMonth y m) (dt : Int) :
    setUTCDate (dayFromCivil y m d) dt = dayFromCivil y m 1 + dt - 1 := by
  simp only [setUTCDate, civil_roundtrip y m d hm1 hm2 hd1 hd2]
  exact jsMakeDay_inrange y m hm1 hm2 dt

theorem setUTCMonth_valid (y : Int) (m d : Nat) (hm1 : 1 ≤ m) (hm2 : m ≤ 12)
    (hd1 : 1 ≤ d) (hd2 : d ≤ daysInMonth y m) (mon : Int) :
    setUTCMonth (dayFromCivil y m d) mon
      = dayFromCivil (y + mon / 12) ((mon % 12).toNat + 1) 1 + (d : Int) - 1 := by
  simp only [setUTCMonth, civil_roundtrip y m d hm1 hm2 hd1 hd2]
  rfl

theorem setUTCFullYear_valid (y : Int) (m d : Nat) (hm1 : 1 ≤ m) (hm2 : m ≤ 12)
    (hd1 : 1 ≤ d) (hd2 : d ≤ daysInMonth y m) (y2 : Int) :
    setUTCFullYear (dayFromCivil y m d) y2 = dayFromCivil y2 m 1 + (d : Int) - 1 := by
  simp only [setUTCFullYear, civil_roundtrip y m d hm1 hm2 hd1 hd2]
  exact jsMakeDay_inrange y2 m hm1 hm2 (d : Int)

/-- Normalization: a day-of-month beyond the month length rolls into the
following month (as ES `MakeDay` does). -/
theorem civilFromDay_overflow (y : Int) (m d : Nat) (hm1 : 1 ≤ m) (hm2 : m ≤ 12)
    (hd31 : d ≤ 31) (hov : daysInMonth y m < d) :
    civilFromDay (dayFromCivil y m 1 + (d : Int) - 1)
      = ⟨if m = 12 then y + 1 else y, if m = 12 then 1 else m + 1,
         d - daysInMonth y m⟩ := by
  have hsucc := dayFromCivil_add_month y m hm1 hm2
  have h28 := daysInMonth_ge28 y m
  rcases eq_or_ne m 12 with h12 | h12
  · subst h12
    rw [if_pos rfl] at hsucc
    rw [show dayFromCivil y 12 1 + (d : Int) - 1
          = dayFromCivil (y + 1) 1 (d - daysInMonth y 12) by
        rw [dayFromCivil_day (y + 1) 1 (d - daysInMonth y 12) (by omega)]
        omega]
    rw [if_pos rfl, if_pos rfl]
    exact civil_roundtrip _ _ _ (by omega) (by omega) (by omega)
      (by have := daysInMonth_ge28 (y + 1) 1; omega)
  · rw [if_neg h12] at hsucc
    rw [show dayFromCivil y m 1 + (d : Int) - 1
          = dayFromCivil y (m + 1) (d - daysInMonth y m) by
        rw [dayFromCivil_day y (m + 1) (d - daysInMonth y m) (by omega)]
        omega]
    rw [if_neg h12, if_neg h12]
    exact civil_roundtrip _ _ _ (by omega) (by omega) (by omega)
      (by have := daysInMonth_ge28 y (m + 1); omega)

/-- The clamp step shared by the month and year arms of `addToDate`:
starting from day `d` counted into month `(Y2, M2)`, the day-changed test
and `setUTCDate 0` produce exactly the day clamped to the month length. -/
theorem clampStep (Y2 : Int) (M2 d : Nat) (hm1 : 1 ≤ M2) (hm2 : M2 ≤ 12)
    (hd1 : 1 ≤ d) (hd31 : d ≤ 31) :
    (if getUTCDate (dayFromCivil Y2 M2 1 + (d : Int) - 1) ≠ d then
       setUTCDate (dayFromCivil Y2 M2 1 + (d : Int) - 1) 0
     else dayFromCivil Y2 M2 1 + (d : Int) - 1)
      = dayFromCivil Y2 M2 (min d (daysInMonth Y2 M2)) := by
  have h28 := daysInMonth_ge28 Y2 M2
  by_cases hle : d ≤ daysInMonth Y2 M2
  · have hd : dayFromCivil Y2 M2 1 + (d : Int) - 1 = dayFromCivil Y2 M2 d :=
      (dayFromCivil_day Y2 M2 d hd1).symm
    rw [hd, if_neg (by simp [getUTCDate_valid Y2 M2 d hm1 hm2 hd1 hle]),
      min_eq_left hle]
  · have hov : daysInMonth Y2 M2 < d := by omega
    have hroll := civilFromDay_overflow Y2 M2 d hm1 hm2 hd31 hov
    have hne : getUTCDate (dayFromCivil Y2 M2 1 + (d : Int) - 1) ≠ d := by
      simp only [getUTCDate, hroll]
      omega
    rw [if_pos hne]
    have hsucc := dayFromCivil_add_month Y2 M2 hm1 hm2
    rcases eq_or_ne M2 12 with h12 | h12
    · subst h12
      rw [if_pos rfl] at hsucc
      simp [setUTCDate, hroll]
      have h1 := jsMakeDay_inrange (Y2 + 1) 1 le_rfl (by omega) 0
      norm_num at h1
      have h2 := dayFromCivil_day Y2 12 (min d (daysInMonth Y2 12)) (by omega)
      omega
    · rw [if_neg h12] at hsucc
      simp [setUTCDate, hroll, h12]
      have h1 := jsMakeDay_inrange Y2 (M2 + 1) (by omega) (by omega) 0
      push_cast at h1
      simp at h1
      have h2 := dayFromCivil_day Y2 M2 (min d (daysInMonth Y2 M2)) (by omega)
      omega

theorem addToDate_days_spec (y : Int) (m d : Nat) (a : Int) (op : Operator) (u : TimeUnit)
    (hm1 : 1 ≤ m) (hm2 : m ≤ 12) (hd1 : 1 ≤ d) (hd2 : d ≤ daysInMonth y m)
    (hu : u = TimeUnit.day ∨ u = TimeUnit.days) :
    addToDate (dayFromCivil y m d) a u op
      = dayFromCivil y m d + (if op = Operator.plus then a else -a) := by
  have h3 := dayFromCivil_day y m d hd1
  have hg := getUTCDate_valid y m d hm1 hm2 hd1 hd2
  have hs := setUTCDate_valid y m d hm1 hm2 hd1 hd2
  rcases hu with rfl | rfl <;> cases op <;> simp [addToDate, hg, hs] <;> omega

theorem addToDate_weeks_spec (y : Int) (m d : Nat) (a : Int) (op : Operator) (u : TimeUnit)
    (hm1 : 1 ≤ m) (hm2 : m ≤ 12) (hd1 : 1 ≤ d) (hd2 : d ≤ daysInMonth y m)
    (hu : u = TimeUnit.week ∨ u = TimeUnit.weeks) :
    addToDate (dayFromCivil y m d) a u op
      = dayFromCivil y m d + 7 * (if op = Operator.plus then a else -a) := by
  have h3 := dayFromCivil_day y m d hd1
  have hg := getUTCDate_valid y m d hm1 hm2 hd1 hd2
  have hs := setUTCDate_valid y m d hm1 hm2 hd1 hd2
  rcases hu with rfl | rfl <;> cases op <;> simp [addToDate, hg, hs] <;> omega

theorem month_clamp_core (y : Int) (m d : Nat) (hm1 : 1 ≤ m) (hm2 : m ≤ 12)
    (hd1 : 1 ≤ d) (hd2 : d ≤ daysInMonth y m) (t : Int) :
    (if getUTCDate (setUTCMonth (dayFromCivil y m d) t) ≠ getUTCDate (dayFromCivil y m d)
     then setUTCDate (setUTCMonth (dayFromCivil y m d) t) 0
     else setUTCMonth (dayFromCivil y m d) t)
      = dayFromCivil (y + t / 12) ((t % 12).toNat + 1)
          (min d (daysInMonth (y + t / 12) ((t % 12).toNat + 1))) := by
  rw [setUTCMonth_valid y m d hm1 hm2 hd1 hd2 t,
      getUTCDate_valid y m d hm1 hm2 hd1 hd2]
  exact clampStep (y + t / 12) ((t % 12).toNat + 1) d (by omega) (by omega) hd1
    (le_trans hd2 (daysInMonth_le31 y m))

theorem year_clamp_core (y : Int) (m d : Nat) (hm1 : 1 ≤ m) (hm2 : m ≤ 12)
    (hd1 : 1 ≤ d) (hd2 : d ≤ daysInMonth y m) (y2 : Int) :
    (if getUTCDate (setUTCFullYear (dayFromCivil y m d) y2) ≠ getUTCDate (dayFromCivil y m d)
     then setUTCDate (setUTCFullYear (dayFromCivil y m d) y2) 0
     else setUTCFullYear (dayFromCivil y m d) y2)
      = dayFromCivil y2 m (min d (daysInMonth y2 m)) := by
  rw [setUTCFullYear_valid y m d hm1 hm2 hd1 hd2 y2,
      getUTCDate_valid y m d hm1 hm2 hd1 hd2]
  exact clampStep y2 m d hm1 hm2 hd1 (le_trans hd2 (daysInMonth_le31 y m))

theorem addToDate_months_spec (y : Int) (m d : Nat) (a : Int) (op : Operator) (u : TimeUnit)
    (hm1 : 1 ≤ m) (hm2 : m ≤ 12) (hd1 : 1 ≤ d) (hd2 : d ≤ daysInMonth y m)
    (hu : u = TimeUnit.month ∨ u = TimeUnit.months) :
    addToDate (dayFromCivil y m d) a u op
      = dayFromCivil (y + ((m : Int) - 1 + (if op = Operator.plus then a else -a)) / 12)
          ((((m : Int) - 1 + (if op = Operator.plus then a else -a)) % 12).toNat + 1)
          (min d (daysInMonth
            (y + ((m : Int) - 1 + (if op = Operator.plus then a else -a)) / 12)
            ((((m : Int) - 1 + (if op = Operator.plus then a else -a)) % 12).toNat + 1))) := by
  have hgm := getUTCMonth_valid y m d hm1 hm2 hd1 hd2
  have hcore := month_clamp_core y m d hm1 hm2 hd1 hd2
  rcases hu with rfl | rfl <;> cases op
  · rw [if_pos rfl]
    simp only [addToDate]
    rw [hgm, hcore]
    rw [show y + (((m - 1 : Nat) : Int) + a * 1) / 12 = y + ((m : Int) - 1 + a) / 12 by omega,
        show ((((m - 1 : Nat) : Int) + a * 1) % 12).toNat + 1
           = (((m : Int) - 1 + a) % 12).toNat + 1 by omega]
  · rw [if_neg (by decide)]
    simp only [addToDate]
    rw [hgm, hcore]
    rw [show y + (((m - 1 : Nat) : Int) + a * -1) / 12 = y + ((m : Int) - 1 + -a) / 12 by omega,
        show ((((m - 1 : Nat) : Int) + a * -1) % 12).toNat + 1
           = (((m : Int) - 1 + -a) % 12).toNat + 1 by omega]
  · rw [if_pos rfl]
    simp only [addToDate]
    rw [hgm, hcore]
    rw [show y + (((m - 1 : Nat) : Int) + a * 1) / 12 = y + ((m : Int) - 1 + a) / 12 by omega,
        show ((((m - 1 : Nat) : Int) + a * 1) % 12).toNat + 1
           = (((m : Int) - 1 + a) % 12).toNat + 1 by omega]
  · rw [if_neg (by decide)]
    simp only [addToDate]
    rw [hgm, hcore]
    rw [show y + (((m - 1 : Nat) : Int) + a * -1) / 12 = y + ((m : Int) - 1 + -a) / 12 by omega,
        show ((((m - 1 : Nat) : Int) + a * -1) % 12).toNat + 1
           = (((m : Int) - 1 + -a) % 12).toNat + 1 by omega]

theorem addToDate_years_spec (y : Int) (m d : Nat) (a : Int) (op : Operator) (u : TimeUnit)
    (hm1 : 1 ≤ m) (hm2 : m ≤ 12) (hd1 : 1 ≤ d) (hd2 : d ≤ daysInMonth y m)
    (hu : u = TimeUnit.year ∨ u = TimeUnit.years) :
    addToDate (dayFromCivil y m d) a u op
      = dayFromCivil (y + (if op = Operator.plus then a else -a)) m
          (min d (daysInMonth (y + (if op = Operator.plus then a else -a)) m)) := by
  have hgy := getUTCFullYear_valid y m d hm1 hm2 hd1 hd2
  have hcore := year_clamp_core y m d hm1 hm2 hd1 hd2
  rcases hu with rfl | rfl <;> cases op
  · rw [if_pos rfl]
    simp only [addToDate]
    rw [hgy, hcore, show y + a * 1 = y + a by ring]
  · rw [if_neg (by decide)]
    simp only [addToDate]
    rw [hgy, hcore, show y + a * -1 = y + -a by ring]
  · rw [if_pos rfl]
    simp only [addToDate]
    rw [hgy, hcore, show y + a * 1 = y + a by ring]
  · rw [if_neg (by decide)]
    simp only [addToDate]
    rw [hgy, hcore, show y + a * -1 = y + -a by ring]

example : dayFromCivil 1970 1 1 = 0 := by decide

example : civilFromDay 0 = ⟨1970, 1, 1⟩ := by decide

example : civilFromDay (dayFromCivil 2026 2 16) = ⟨2026, 2, 16⟩ := by decide

/-- C1: for every valid calendar date, strictly positive integer amount and
operator, `addToDate` with day units shifts by exactly the signed amount of
days and with week units by `7 *` the signed amount; with month units it
shifts the month field by the signed amount and clamps the day-of-month to
the target month length when the target month is shorter; with year units it
shifts the year field and applies the same day clamp (Feb 29 plus one year
gives Feb 28 of a non-leap year).  Holds across arbitrary month and year
boundaries. -/
theorem C1_addToDate_interval_semantics
    (y : Int) (m d : Nat) (a : Int) (op : Operator)
    (hm1 : 1 ≤ m) (hm2 : m ≤ 12) (hd1 : 1 ≤ d) (hd2 : d ≤ daysInMonth y m)
    (ha : 1 ≤ a) :
    (∀ u, u = TimeUnit.day ∨ u = TimeUnit.days →
        addToDate (dayFromCivil y m d) a u op
          = dayFromCivil y m d + (if op = Operator.plus then a else -a)) ∧
    (∀ u, u = TimeUnit.week ∨ u = TimeUnit.weeks →
        addToDate (dayFromCivil y m d) a u op
          = dayFromCivil y m d + 7 * (if op = Operator.plus then a else -a)) ∧
    (∀ u, u = TimeUnit.month ∨ u = TimeUnit.months →
        addToDate (dayFromCivil y m d) a u op
          = dayFromCivil
              (y + ((m : Int) - 1 + (if op = Operator.plus then a else -a)) / 12)
              ((((m : Int) - 1 + (if op = Operator.plus then a else -a)) % 12).toNat + 1)
              (min d (daysInMonth
                (y + ((m : Int) - 1 + (if op = Operator.plus then a else -a)) / 12)
                ((((m : Int) - 1 + (if op = Operator.plus then a else -a)) % 12).toNat + 1)))) ∧
    (∀ u, u = TimeUnit.year ∨ u = TimeUnit.years →
        addToDate (dayFromCivil y m d) a u op
          = dayFromCivil (y + (if op = Operator.plus then a else -a)) m
              (min d (daysInMonth (y + (if op = Operator.plus then a else -a)) m))) :=
  ⟨fun u hu => addToDate_days_spec y m d a op u hm1 hm2 hd1 hd2 hu,
   fun u hu => addToDate_weeks_spec y m d a op u hm1 hm2 hd1 hd2 hu,
   fun u hu => addToDate_months_spec y m d a op u hm1 hm2 hd1 hd2 hu,
   fun u hu => addToDate_years_spec y m d a op u hm1 hm2 hd1 hd2 hu⟩

/-- Witness for C1 at concrete inputs: `2024-02-29 + 1 year = 2025-02-28`
and `2026-01-31 + 1 month = 2026-02-28`. -/
theorem C1_addToDate_interval_semantics_witness :
    addToDate (dayFromCivil 2024 2 29) 1 TimeUnit.year Operator.plus
      = dayFromCivil 2025 2 28 ∧
    addToDate (dayFromCivil 2026 1 31) 1 TimeUnit.month Operator.plus
      = dayFromCivil 2026 2 28 :=
  ⟨((C1_addToDate_interval_semantics 2024 2 29 1 Operator.plus (by decide) (by decide)
      (by decide) (by decide) (by decide)).2.2.2 TimeUnit.year (Or.inl rfl)).trans
    (by decide),
   ((C1_addToDate_interval_semantics 2026 1 31 1 Operator.plus (by decide) (by decide)
      (by decide) (by decide) (by decide)).2.2.1 TimeUnit.month (Or.inl rfl)).trans
    (by decide)⟩

/-! ## Decimal strings (JS `String(n)`, `padStart`) -/

/-- Decimal digit character. -/
def digitChar (n : Nat) : Char :=
  match n with
  | 0 => '0' | 1 => '1' | 2 => '2' | 3 => '3' | 4 => '4'
  | 5 => '5' | 6 => '6' | 7 => '7' | 8 => '8' | _ => '9'

/-- Big-endian decimal digits, with structural fuel so that the kernel can
evaluate it (`fuel` exceeding the number is enough). -/
def natDigitsAux : Nat → Nat → List Char
  | 0, _ => []
  | fuel + 1, n =>
      if n < 10 then [digitChar n] else natDigitsAux fuel (n / 10) ++ [digitChar (n % 10)]

/-- Big-endian decimal digits of a natural number. -/
def natDigits (n : Nat) : List Char := natDigitsAux (n + 1) n

theorem natDigitsAux_congr (f1 : Nat) : ∀ (f2 n : Nat), n < f1 → n < f2 →
    natDigitsAux f1 n = natDigitsAux f2 n := by
  induction f1 with
  | zero => omega
  | succ a ih =>
      intro f2 n h1 h2
      match f2, h2 with
      | b + 1, h2 =>
        show (if n < 10 then _ else _) = (if n < 10 then _ else _)
        by_cases h10 : n < 10
        · rw [if_pos h10, if_pos h10]
        · rw [if_neg h10, if_neg h10, ih b (n / 10) (by omega) (by omega)]

/-- JS `String(n)` for a non-negative number. -/
def natToString (n : Nat) : String := String.mk (natDigits n)

/-- JS `String(i)` for an integer (as used by the template `${year}`). -/
def intToString (i : Int) : String :=
  if i < 0 then String.mk ('-' :: natDigits (-i).toNat) else String.mk (natDigits i.toNat)

/-- JS `String.prototype.padStart(2, "0")`. -/
def padStart2 (s : String) : String :=
  if s.length < 2 then String.mk (List.replicate (2 - s.length) '0' ++ s.data) else s

/-- Value of a decimal digit character. -/
def digitVal (c : Char) : Nat := c.toNat - 48

theorem digitChar_isDigit (n : Nat) : (digitChar n).isDigit = true := by
  unfold digitChar
  split <;> decide

theorem digitVal_digitChar (k : Nat) (h : k < 10) : digitVal (digitChar k) = k := by
  interval_cases k <;> decide

theorem natDigits_lt10 (n : Nat) (h : n < 10) : natDigits n = [digitChar n] := by
  show (if n < 10 then _ else _) = _
  rw [if_pos h]

theorem natDigits_ge10 (n : Nat) (h : 10 ≤ n) :
    natDigits n = natDigits (n / 10) ++ [digitChar (n % 10)] := by
  show (if n < 10 then _ else _) = _
  rw [if_neg (by omega), natDigitsAux_congr n (n / 10 + 1) (n / 10) (by omega) (by omega)]
  rfl

theorem natDigits4 (y : Nat) (h1 : 1000 ≤ y) (h2 : y ≤ 9999) :
    natDigits y = [digitChar (y / 1000), digitChar (y / 100 % 10),
                   digitChar (y / 10 % 10), digitChar (y % 10)] := by
  rw [natDigits_ge10 y (by omega), natDigits_ge10 (y / 10) (by omega),
      natDigits_ge10 (y / 10 / 10) (by omega), natDigits_lt10 (y / 10 / 10 / 10) (by omega),
      show y / 10 / 10 / 10 = y / 1000 by omega, show y / 10 / 10 % 10 = y / 100 % 10 by omega,
      show y / 10 % 10 = y / 10 % 10 from rfl]
  simp

theorem padStart2_data (n : Nat) (h : n ≤ 99) :
    (padStart2 (natToString n)).data = [digitChar (n / 10), digitChar (n % 10)] := by
  rcases Nat.lt_or_ge n 10 with h10 | h10
  · rw [natToString, natDigits_lt10 n h10, padStart2]
    rw [show n / 10 = 0 by omega, show n % 10 = n by omega]
    simp [String.length]
    decide
  · rw [natToString, natDigits_ge10 n h10, natDigits_lt10 (n / 10) (by omega), padStart2]
    simp [String.length]

/-! ## Source `date-utils.ts`: `formatDate` and `parseDate` -/

/-- `formatDate` from `src/date-utils.ts` (lines 56-61):
`${year}-${month.padStart(2,"0")}-${day.padStart(2,"0")}`, UTC-based. -/
def formatDate (date : Int) : String :=
  let year := getUTCFullYear date
  let month := padStart2 (natToString (getUTCMonth date + 1))
  let day := padStart2 (natToString (getUTCDate date))
  intToString year ++ "-" ++ month ++ "-" ++ day

/-- Test of the source regex `/^\d{4}-\d{2}-\d{2}$/`. -/
def isoDateShape (cs : List Char) : Bool :=
  match cs with
  | [y1, y2, y3, y4, h1, m1, m2, h2, d1, d2] =>
      y1.isDigit && y2.isDigit && y3.isDigit && y4.isDigit && h1 == '-' &&
      m1.isDigit && m2.isDigit && h2 == '-' && d1.isDigit && d2.isDigit
  | _ => false

/-- Test of the source regex `/^\d{4}-\d{2}-\d{2}T/`. -/
def isoDateTimeShape (cs : List Char) : Bool :=
  match cs with
  | y1 :: y2 :: y3 :: y4 :: h1 :: m1 :: m2 :: h2 :: d1 :: d2 :: t :: _ =>
      y1.isDigit && y2.isDigit && y3.isDigit && y4.isDigit && h1 == '-' &&
      m1.isDigit && m2.isDigit && h2 == '-' && d1.isDigit && d2.isDigit && t == 'T'
  | _ => false

/-- ES construction of a `Date` from the date components of a Date-Time
string: the grammar requires month 01-12 and day 01-31; in-grammar values
are normalized through `MakeDay` (so `2026-02-30` rolls to `2026-03-02`,
while `2026-13-01` is `NaN`). -/
def jsDateFromYMD (y mo dd : Nat) : Option Int :=
  if 1 ≤ mo ∧ mo ≤ 12 ∧ 1 ≤ dd ∧ dd ≤ 31 then
    some (jsMakeDay (y : Int) ((mo : Int) - 1) (dd : Int))
  else none

/-- Two decimal digits. -/
def twoDigits : List Char → Option (Nat × List Char)
  | c1 :: c2 :: rest =>
      if c1.isDigit && c2.isDigit then some (10 * digitVal c1 + digitVal c2, rest)
      else none
  | _ => none

/-- Optional fraction `.digits` after the seconds. -/
def parseFrac : List Char → Option (List Char)
  | '.' :: rest =>
      if (rest.takeWhile Char.isDigit).isEmpty then none
      else some (rest.dropWhile Char.isDigit)
  | rest => some rest

/-- Optional `:SS(.frac)?`; returns the seconds and the remainder. -/
def parseSeconds : List Char → Option (Nat × List Char)
  | ':' :: rest =>
      match twoDigits rest with
      | some (ss, r2) =>
          if ss ≤ 59 then
            match parseFrac r2 with
            | some r3 => some (ss, r3)
            | none => none
          else none
      | none => none
  | rest => some (0, rest)

/-- Time-zone designator: empty or `Z` (UTC) or `±HH:MM`; minutes east. -/
def parseOffset : List Char → Option Int
  | [] => some 0
  | ['Z'] => some 0
  | '+' :: rest =>
      match twoDigits rest with
      | some (hh, ':' :: r2) =>
          match twoDigits r2 with
          | some (mm, []) => if hh ≤ 23 ∧ mm ≤ 59 then some (hh * 60 + mm) else none
          | _ => none
      | _ => none
  | '-' :: rest =>
      match twoDigits rest with
      | some (hh, ':' :: r2) =>
          match twoDigits r2 with
          | some (mm, []) => if hh ≤ 23 ∧ mm ≤ 59 then some (-(hh * 60 + mm : Int)) else none
          | _ => none
      | _ => none
  | _ => none

/-- ES parse of a Date-Time string (after the leading `YYYY-MM-DDT` shape has
been checked), truncated to its UTC day.  Offset-less date-times are treated
as UTC, matching the repository's UTC-based hosts. -/
def jsParseDateTime (cs : List Char) : Option Int :=
  match cs with
  | y1 :: y2 :: y3 :: y4 :: _ :: m1 :: m2 :: _ :: d1 :: d2 :: _ :: rest =>
      let y := 1000 * digitVal y1 + 100 * digitVal y2 + 10 * digitVal y3 + digitVal y4
      let mo := 10 * digitVal m1 + digitVal m2
      let dd := 10 * digitVal d1 + digitVal d2
      match twoDigits rest with
      | some (hh, ':' :: r2) =>
          match twoDigits r2 with
          | some (mm, r3) =>
              match parseSeconds r3 with
              | some (ss, r4) =>
                  match parseOffset r4 with
                  | some off =>
                      if 1 ≤ mo ∧ mo ≤ 12 ∧ 1 ≤ dd ∧ dd ≤ 31 ∧ mm ≤ 59 ∧
                         (hh ≤ 23 ∨ (hh = 24 ∧ mm = 0 ∧ ss = 0)) then
                        some (jsMakeDay (y : Int) ((mo : Int) - 1) (dd : Int)
                          + ((hh : Int) * 60 + (mm : Int) - off) / 1440)
                      else none
                  | none => none
              | none => none
          | _ => none
      | _ => none
  | _ => none

/-- `parseDate` from `src/date-utils.ts` (lines 18-44): `YYYY-MM-DD` with a
format-round-trip validity check, falling through to the ISO date-time
branch; `null` (here `none`) if both fail. -/
def parseDate (value : String) : Option Int :=
  let plain : Option Int :=
    if isoDateShape value.data then
      match value.data with
      | y1 :: y2 :: y3 :: y4 :: _ :: m1 :: m2 :: _ :: d1 :: d2 :: _ =>
          match jsDateFromYMD
              (1000 * digitVal y1 + 100 * digitVal y2 + 10 * digitVal y3 + digitVal y4)
              (10 * digitVal m1 + digitVal m2) (10 * digitVal d1 + digitVal d2) with
          | some date => if formatDate date = value then some date else none
          | none => none
      | _ => none
    else none
  match plain with
  | some date => some date
  | none => if isoDateTimeShape value.data then jsParseDateTime value.data else none

theorem formatDate_valid (y m d : Nat) (hy1 : 1000 ≤ y) (hy2 : y ≤ 9999)
    (hm1 : 1 ≤ m) (hm2 : m ≤ 12) (hd1 : 1 ≤ d) (hd2 : d ≤ daysInMonth (y : Int) m) :
    (formatDate (dayFromCivil (y : Int) m d)).data
      = [digitChar (y / 1000), digitChar (y / 100 % 10), digitChar (y / 10 % 10),
         digitChar (y % 10), '-', digitChar (m / 10), digitChar (m % 10), '-',
         digitChar (d / 10), digitChar (d % 10)] := by
  have h31 := daysInMonth_le31 (y : Int) m
  simp only [formatDate]
  rw [getUTCFullYear_valid (y : Int) m d hm1 hm2 hd1 hd2,
      getUTCMonth_valid (y : Int) m d hm1 hm2 hd1 hd2,
      getUTCDate_valid (y : Int) m d hm1 hm2 hd1 hd2,
      show m - 1 + 1 = m by omega]
  rw [intToString, if_neg (by omega : ¬ (y : Int) < 0),
      show ((y : Int)).toNat = y by omega, natDigits4 y hy1 hy2]
  simp [String.data_append, padStart2_data m (by omega), padStart2_data d (by omega)]

example : formatDate (dayFromCivil 999 1 1) = "999-01-01" := by decide

example : parseDate "2026-02-30" = none := by decide

example : parseDate "2026-02-16" = some (dayFromCivil 2026 2 16) := by decide

theorem formatDate_isoShape (y m d : Nat) (hy1 : 1000 ≤ y) (hy2 : y ≤ 9999)
    (hm1 : 1 ≤ m) (hm2 : m ≤ 12) (hd1 : 1 ≤ d) (hd2 : d ≤ daysInMonth (y : Int) m) :
    isoDateShape (formatDate (dayFromCivil (y : Int) m d)).data = true := by
  rw [formatDate_valid y m d hy1 hy2 hm1 hm2 hd1 hd2]
  simp [isoDateShape, digitChar_isDigit]

/-- C8 (amended): for every calendar date whose year has four digits
(1000-9999), `formatDate` emits exactly the zero-padded shape `YYYY-MM-DD`
(UTC-based, no time component).  The unamended claim fails because the
source does not zero-pad the year. -/
theorem C8_formatDate_shape (y m d : Nat) (hy1 : 1000 ≤ y) (hy2 : y ≤ 9999)
    (hm1 : 1 ≤ m) (hm2 : m ≤ 12) (hd1 : 1 ≤ d) (hd2 : d ≤ daysInMonth (y : Int) m) :
    isoDateShape (formatDate (dayFromCivil (y : Int) m d)).data = true :=
  formatDate_isoShape y m d hy1 hy2 hm1 hm2 hd1 hd2

/-- C8 counterexample: the year-999 date `0999-01-01` is formatted with a
three-digit year, not the claimed four-digit `YYYY-MM-DD` shape. -/
theorem C8_formatDate_shape_counterexample :
    formatDate (dayFromCivil 999 1 1) = "999-01-01" ∧
    isoDateShape (formatDate (dayFromCivil 999 1 1)).data = false := by
  decide

/-- Witness for C8 at `2026-03-05`. -/
theorem C8_formatDate_shape_witness :
    isoDateShape (formatDate (dayFromCivil ((2026 : Nat) : Int) 3 5)).data = true :=
  C8_formatDate_shape 2026 3 5 (by decide) (by decide) (by decide) (by decide)
    (by decide) (by decide)

/-- C2 (amended): parsing the formatted string returns the same date, for
every valid calendar date whose year has four digits (1000-9999).  The
unamended claim fails for years below 1000, which format without zero
padding and are then rejected by `parseDate`. -/
theorem C2_parseDate_formatDate_roundtrip (y m d : Nat) (hy1 : 1000 ≤ y) (hy2 : y ≤ 9999)
    (hm1 : 1 ≤ m) (hm2 : m ≤ 12) (hd1 : 1 ≤ d) (hd2 : d ≤ daysInMonth (y : Int) m) :
    parseDate (formatDate (dayFromCivil (y : Int) m d))
      = some (dayFromCivil (y : Int) m d) := by
  have hfd := formatDate_valid y m d hy1 hy2 hm1 hm2 hd1 hd2
  have hy' : 1000 * digitVal (digitChar (y / 1000)) + 100 * digitVal (digitChar (y / 100 % 10))
      + 10 * digitVal (digitChar (y / 10 % 10)) + digitVal (digitChar (y % 10)) = y := by
    rw [digitVal_digitChar (y / 1000) (by omega), digitVal_digitChar (y / 100 % 10) (by omega),
        digitVal_digitChar (y / 10 % 10) (by omega), digitVal_digitChar (y % 10) (by omega)]
    omega
  have hm' : 10 * digitVal (digitChar (m / 10)) + digitVal (digitChar (m % 10)) = m := by
    rw [digitVal_digitChar (m / 10) (by omega), digitVal_digitChar (m % 10) (by omega)]
    omega
  have hd' : 10 * digitVal (digitChar (d / 10)) + digitVal (digitChar (d % 10)) = d := by
    have := daysInMonth_le31 (y : Int) m
    rw [digitVal_digitChar (d / 10) (by omega), digitVal_digitChar (d % 10) (by omega)]
    omega
  simp only [parseDate, hfd, formatDate_isoShape y m d hy1 hy2 hm1 hm2 hd1 hd2, if_true]
  simp only [hy', hm', hd', jsDateFromYMD]
  rw [if_pos (by have := daysInMonth_le31 (y : Int) m; omega :
       1 ≤ m ∧ m ≤ 12 ∧ 1 ≤ d ∧ d ≤ 31)]
  rw [jsMakeDay_inrange (y : Int) m hm1 hm2 (d : Int),
      ← dayFromCivil_day (y : Int) m d hd1]
  have hsh : isoDateShape [digitChar (y / 1000), digitChar (y / 100 % 10),
      digitChar (y / 10 % 10), digitChar (y % 10), '-', digitChar (m / 10),
      digitChar (m % 10), '-', digitChar (d / 10), digitChar (d % 10)] = true := by
    rw [← hfd]
    exact formatDate_isoShape y m d hy1 hy2 hm1 hm2 hd1 hd2
  simp [hsh]

/-- C2 counterexample: the valid calendar date `999-01-01` (year 999) does
not round-trip, because `formatDate` emits a three-digit year that
`parseDate` rejects. -/
theorem C2_roundtrip_counterexample :
    formatDate (dayFromCivil 999 1 1) = "999-01-01" ∧
    parseDate (formatDate (dayFromCivil 999 1 1)) = none := by
  decide

/-- Witness for C2 at `2026-02-16`. -/
theorem C2_parseDate_formatDate_roundtrip_witness :
    parseDate (formatDate (dayFromCivil ((2026 : Nat) : Int) 2 16))
      = some (dayFromCivil ((2026 : Nat) : Int) 2 16) :=
  C2_parseDate_formatDate_roundtrip 2026 2 16 (by decide) (by decide) (by decide)
    (by decide) (by decide) (by decide)

/-- C4: a plain `YYYY-MM-DD` input is accepted only when formatting the
parsed value reproduces the input byte for byte; `2026-02-30` and
`2026-13-01` are rejected. -/
theorem C4_parseDate_roundtrip_validation :
    (∀ (s : String) (z : Int), isoDateShape s.data = true → parseDate s = some z →
        formatDate z = s) ∧
    parseDate "2026-02-30" = none ∧ parseDate "2026-13-01" = none := by
  refine ⟨?_, by decide, by decide⟩
  rintro ⟨cs⟩ z hs hp
  rcases cs with _ | ⟨a1, _ | ⟨a2, _ | ⟨a3, _ | ⟨a4, _ | ⟨a5, _ | ⟨a6, _ | ⟨a7, _ |
    ⟨a8, _ | ⟨a9, _ | ⟨a10, _ | ⟨a11, rest⟩⟩⟩⟩⟩⟩⟩⟩⟩⟩⟩ <;> simp [isoDateShape] at hs
  have hs2 : isoDateShape [a1, a2, a3, a4, a5, a6, a7, a8, a9, a10] = true := by
    simp only [isoDateShape, Bool.and_eq_true, beq_iff_eq]
    simp_all
  revert hp
  simp only [parseDate]
  rw [if_pos hs2]
  simp only [isoDateTimeShape]
  rcases hDF : jsDateFromYMD
      (1000 * digitVal a1 + 100 * digitVal a2 + 10 * digitVal a3 + digitVal a4)
      (10 * digitVal a6 + digitVal a7) (10 * digitVal a9 + digitVal a10) with _ | date
  · simp
  · simp only []
    by_cases hfmt : formatDate date = String.mk [a1, a2, a3, a4, a5, a6, a7, a8, a9, a10]
    · rw [if_pos hfmt]
      intro hp
      cases hp
      exact hfmt
    · rw [if_neg hfmt]
      simp

/-- Witness for C4 at `2026-02-16`. -/
theorem C4_parseDate_roundtrip_validation_witness :
    formatDate (dayFromCivil 2026 2 16) = "2026-02-16" :=
  C4_parseDate_roundtrip_validation.1 "2026-02-16" (dayFromCivil 2026 2 16)
    (by decide) (by decide)

/-! ## Source `tokenizer.ts` -/

/-- `type TokenType` from `src/tokenizer.ts`. -/
inductive TokenType
  | VAR | OPERATOR | NUMBER | UNIT | EOF
deriving DecidableEq

/-- `interface Token` from `src/tokenizer.ts`. -/
structure Token where
  type : TokenType
  value : String
  position : Nat
deriving DecidableEq

/-- Variable-name characters: `[A-Z_]`. -/
def isVarChar (c : Char) : Bool := ('A' ≤ c && c ≤ 'Z') || c == '_'

/-- Unit characters: `[a-z]`. -/
def isUnitChar (c : Char) : Bool := 'a' ≤ c && c ≤ 'z'

/-- `isValidOperator` from `src/tokenizer.ts`, at the single-character level. -/
def isValidOperatorChar (c : Char) : Bool := c == '+' || c == '-'

/-- `isValidTimeUnit` from `src/tokenizer.ts`. -/
def isValidTimeUnit (unit : String) : Bool :=
  ["day", "days", "week", "weeks", "month", "months", "year", "years"].contains unit

/-- The `TimeUnit` denoted by a spelling accepted by `isValidTimeUnit`
(the TS `as TimeUnit` narrowing). -/
def timeUnitOf (s : String) : TimeUnit :=
  if s = "day" then .day else if s = "days" then .days
  else if s = "week" then .week else if s = "weeks" then .weeks
  else if s = "month" then .month else if s = "months" then .months
  else if s = "year" then .year else .years

/-- JS `String.prototype.trim`. -/
def trimChars (cs : List Char) : List Char :=
  ((cs.dropWhile Char.isWhitespace).reverse.dropWhile Char.isWhitespace).reverse

/-- The scanning loop of `Tokenizer.tokenize`: single pass, character-class
driven; whitespace skipped; any other character is a fatal error.  `fuel`
bounds the recursion (any value above the character count behaves
identically) so the definition is structural and kernel-evaluable. -/
def tokenizeGo : Nat → List Char → Nat → Except String (List Token)
  | 0, _, _ => .error "fuel exhausted"
  | fuel + 1, cs, pos =>
      match cs with
      | [] => .ok [⟨.EOF, "", pos⟩]
      | c :: rest =>
          if c.isWhitespace then tokenizeGo fuel rest (pos + 1)
          else if isVarChar c then
            match tokenizeGo fuel (rest.dropWhile isVarChar)
                (pos + 1 + (rest.takeWhile isVarChar).length) with
            | .ok ts => .ok (⟨.VAR, String.mk (c :: rest.takeWhile isVarChar), pos⟩ :: ts)
            | .error e => .error e
          else if isValidOperatorChar c then
            match tokenizeGo fuel rest (pos + 1) with
            | .ok ts => .ok (⟨.OPERATOR, String.mk [c], pos⟩ :: ts)
            | .error e => .error e
          else if c.isDigit then
            match tokenizeGo fuel (rest.dropWhile Char.isDigit)
                (pos + 1 + (rest.takeWhile Char.isDigit).length) with
            | .ok ts => .ok (⟨.NUMBER, String.mk (c :: rest.takeWhile Char.isDigit), pos⟩ :: ts)
            | .error e => .error e
          else if isUnitChar c then
            match tokenizeGo fuel (rest.dropWhile isUnitChar)
                (pos + 1 + (rest.takeWhile isUnitChar).length) with
            | .ok ts => .ok (⟨.UNIT, String.mk (c :: rest.takeWhile isUnitChar), pos⟩ :: ts)
            | .error e => .error e
          else .error ("Unexpected character \x27" ++ String.mk [c] ++ "\x27 at position "
            ++ natToString pos)

/-- `Tokenizer.tokenize` from `src/tokenizer.ts`: trims the input, scans it,
and always ends with an `EOF` token; throws (models as `Except.error`) on an
unexpected character. -/
def tokenize (input : String) : Except String (List Token) :=
  tokenizeGo ((trimChars input.data).length + 1) (trimChars input.data) 0

instance {e a : Type} [DecidableEq e] [DecidableEq a] : DecidableEq (Except e a)
  | .error e1, .error e2 =>
      if h : e1 = e2 then .isTrue (by rw [h]) else .isFalse (fun hc => by cases hc; exact h rfl)
  | .error _, .ok _ => .isFalse (fun hc => by cases hc)
  | .ok _, .error _ => .isFalse (fun hc => by cases hc)
  | .ok a1, .ok a2 =>
      if h : a1 = a2 then .isTrue (by rw [h]) else .isFalse (fun hc => by cases hc; exact h rfl)

example : tokenize "MY_DATE + 2 days"
    = .ok [⟨.VAR, "MY_DATE", 0⟩, ⟨.OPERATOR, "+", 8⟩, ⟨.NUMBER, "2", 10⟩,
           ⟨.UNIT, "days", 12⟩, ⟨.EOF, "", 16⟩] := by decide

/-! ## Source `types.ts` and `parser.ts`: AST and parser -/

/-- `ASTNode` from `src/types.ts`: tagged union of `VarRef` and
`DateArithmetic`. -/
inductive ASTNode
  | var_ref (name : String)
  | date_arithmetic (base : ASTNode) (operator : Operator) (amount : Int) (unit : TimeUnit)
deriving DecidableEq

/-- `ParseError` from `src/types.ts`. -/
structure ParseError where
  code : String
  message : String
  token : String
  position : Option Nat := none
deriving DecidableEq

/-- `isValidOperator` from `src/tokenizer.ts` on a token value. -/
def isValidOperatorS (s : String) : Bool := s == "+" || s == "-"

/-- Token type names as used in parser error messages. -/
def tokenTypeName : TokenType → String
  | .VAR => "VAR"
  | .OPERATOR => "OPERATOR"
  | .NUMBER => "NUMBER"
  | .UNIT => "UNIT"
  | .EOF => "EOF"

/-- The mathematical integer value of a digit list (the exact value that
`parseInt` then rounds to a float64). -/
def natOfDigits (cs : List Char) : Nat :=
  cs.foldl (fun a c => 10 * a + digitVal c) 0

/-- Number of halvings needed to bring `n` below `2^53` (the float64
significand width); first argument is fuel (`n` itself suffices). -/
def excessBits : Nat → Nat → Nat
  | 0, _ => 0
  | f + 1, n => if n < Nat.pow 2 53 then 0 else excessBits f (n / 2) + 1

/-- Round a nonnegative integer to the nearest float64 value
(round-to-nearest, ties-to-even on the 53-bit significand), with the
exponent range left unbounded: overflow to Infinity is detected by the
caller comparing the result against `2^1024`. -/
def roundDouble (n : Nat) : Nat :=
  if n < Nat.pow 2 53 then n
  else
    let s := excessBits n n
    let q := n / Nat.pow 2 s
    let r := n % Nat.pow 2 s
    let half := Nat.pow 2 (s - 1)
    (if half < r ∨ (r = half ∧ q % 2 = 1) then q + 1 else q) * Nat.pow 2 s

/-- Result of JS `parseInt`: `NaN`, a signed `Infinity`, or a finite
float64 value (always integral here, so carried as an `Int`). -/
inductive ParsedInt
  | nan
  | inf (negative : Bool)
  | fin (value : Int)
deriving DecidableEq

/-- JS `parseInt(s, 10)`: skip leading whitespace, optional sign, longest
digit prefix (trailing garbage ignored); no digits give `NaN`; the digit
value is rounded to a float64, overflowing to a signed `Infinity` when the
rounded value reaches `2^1024`. -/
def parseIntDec (cs : List Char) : ParsedInt :=
  match cs.dropWhile Char.isWhitespace with
  | '+' :: r => parseIntDecUnsigned false r
  | '-' :: r => parseIntDecUnsigned true r
  | r => parseIntDecUnsigned false r
where
  parseIntDecUnsigned (negative : Bool) (cs2 : List Char) : ParsedInt :=
    match cs2.takeWhile Char.isDigit with
    | [] => .nan
    | ds =>
        let r := roundDouble (natOfDigits ds)
        if Nat.pow 2 1024 ≤ r then .inf negative
        else .fin (if negative then -(r : Int) else (r : Int))

/-- Does the integer `c` round (nearest, ties-to-even) to the integral
float64 value `v`?  Used only on integer candidates: for `v < 2^53` the
half-gap to both neighbouring doubles is at most `1/2`, so the only integer
rounding to `v` is `v` itself; for `v ≥ 2^53` the half-gaps are `ulp/2 =
2^(s-1)` (halved on the lower side at a binade boundary), the interval
being closed exactly when the significand is even.  Comparisons are scaled
by 4 to stay in `Nat`. -/
def doubleRoundsTo (c v : Nat) : Bool :=
  if v < Nat.pow 2 53 then c = v
  else
    let s := excessBits v v
    let m := v / Nat.pow 2 s
    let hi4 := Nat.pow 2 (s + 1)
    let lo4 := if m = Nat.pow 2 52 then Nat.pow 2 s else Nat.pow 2 (s + 1)
    if c ≤ v then
      (4 * (v - c) < lo4) || (m % 2 = 0 && 4 * (v - c) = lo4)
    else
      (4 * (c - v) < hi4) || (m % 2 = 0 && 4 * (c - v) = hi4)

/-- The shortest-digits search of ECMA `Number::toString` (6.1.6.1.20) for
an integral float64 `v`: find the least digit count `k` such that some
`S·10^(n−k)` (with `n` the digit count of `v`) rounds to `v`; among the two
bracketing candidates prefer the closer, ties to even `S`.  Returns
`(S, n−k)`; the loop always terminates at `k = n` with `(v, 0)`. -/
def shortestSigGo (v : Nat) : Nat → Nat → Nat × Nat
  | 0, _ => (v, 0)
  | f + 1, k =>
      if (natDigits v).length ≤ k then (v, 0)
      else
        let step := Nat.pow 10 ((natDigits v).length - k)
        let q := v / step
        let r := v % step
        if doubleRoundsTo (q * step) v then
          if doubleRoundsTo ((q + 1) * step) v then
            if r * 2 < step ∨ (r * 2 = step ∧ q % 2 = 0) then (q, (natDigits v).length - k)
            else (q + 1, (natDigits v).length - k)
          else (q, (natDigits v).length - k)
        else if doubleRoundsTo ((q + 1) * step) v then ((q + 1), (natDigits v).length - k)
        else shortestSigGo v f (k + 1)

/-- Shortest significand and trailing power of ten for an integral
float64. -/
def shortestSig (v : Nat) : Nat × Nat :=
  shortestSigGo v ((natDigits v).length + 1) 1

/-- ECMA `Number::toString` for a nonnegative integral float64 `v`
(as produced by `roundDouble`): shortest round-tripping digits, fixed
notation up to 21 digits, exponential (`d.ddde+N`) beyond. -/
def jsNatToString (v : Nat) : String :=
  if v = 0 then "0"
  else
    let p := shortestSig v
    let ds := natDigits p.1
    if ds.length + p.2 ≤ 21 then String.mk (ds ++ List.replicate p.2 '0')
    else
      match ds with
      | [] => "0"
      | d :: ds' =>
          String.mk ([d] ++ (if ds' = [] then [] else '.' :: ds')
            ++ ('e' :: '+' :: natDigits (ds.length + p.2 - 1)))

/-- JS `String(i)` for an integral float64 carried as an `Int`. -/
def jsIntToString (i : Int) : String :=
  if i < 0 then "-" ++ jsNatToString i.natAbs else jsNatToString i.toNat

/-- The `while (OPERATOR)` loop of `Parser.parseExpression`
(`src/parser.ts` lines 119-175), consuming `(OPERATOR NUMBER UNIT)*`.
`amount = parseInt(value, 10)` is a float64; the source guard
`!Number.isFinite(amount) || amount <= 0` is the three branches
`nan` / `inf` / `fin amount ≤ 0`, all giving the same error; the
limit-exceeded message interpolates `${amount}` via JS number-to-string
(the limit itself is a configuration `Nat` of the model, printed as its
digits). -/
def parseOps (maxIntervalAmount : Nat) : ASTNode → List Token → Except ParseError (ASTNode × List Token)
  | node, Token.mk TokenType.OPERATOR v pos :: rest =>
      if ¬ isValidOperatorS v then
        .error ⟨"PARSE_ERROR", "Invalid operator \x27" ++ v ++ "\x27", v, some pos⟩
      else
        match rest with
        | Token.mk TokenType.NUMBER nv npos :: rest2 =>
            match parseIntDec nv.data with
            | ParsedInt.nan =>
                .error ⟨"PARSE_ERROR", "Interval amount must be a positive integer",
                  nv, some npos⟩
            | ParsedInt.inf _ =>
                .error ⟨"PARSE_ERROR", "Interval amount must be a positive integer",
                  nv, some npos⟩
            | ParsedInt.fin amount =>
            if amount ≤ 0 then
              .error ⟨"PARSE_ERROR", "Interval amount must be a positive integer",
                nv, some npos⟩
            else if (maxIntervalAmount : Int) < amount then
              .error ⟨"PARSE_ERROR", "Interval amount " ++ jsIntToString amount
                ++ " exceeds maximum " ++ natToString maxIntervalAmount, nv, some npos⟩
            else
              match rest2 with
              | Token.mk TokenType.UNIT uv upos :: rest3 =>
                  if ¬ isValidTimeUnit uv then
                    .error ⟨"PARSE_ERROR", "Invalid time unit \x27" ++ uv
                      ++ "\x27. Must be one of: day, days, week, weeks, month, months, year, years",
                      uv, some upos⟩
                  else
                    parseOps maxIntervalAmount
                      (.date_arithmetic node
                        (if v = "+" then Operator.plus else Operator.minus)
                        amount (timeUnitOf uv)) rest3
              | t :: _ =>
                  .error ⟨"PARSE_ERROR", "Expected UNIT, got " ++ tokenTypeName t.type,
                    t.value, some t.position⟩
              | [] => .error ⟨"PARSE_ERROR", "Expected UNIT, got none", "", none⟩
        | t :: _ =>
            .error ⟨"PARSE_ERROR", "Expected NUMBER, got " ++ tokenTypeName t.type,
              t.value, some t.position⟩
        | [] => .error ⟨"PARSE_ERROR", "Expected NUMBER, got none", "", none⟩
  | node, ts => .ok (node, ts)

/-- `Parser.parsePrimary` (`src/parser.ts` lines 184-196): only a `VAR`
token is a legal primary. -/
def parsePrimary : List Token → Except ParseError (ASTNode × List Token)
  | Token.mk TokenType.VAR v _ :: rest => .ok (.var_ref v, rest)
  | t :: _ => .error ⟨"PARSE_ERROR", "Expected variable name", t.value, some t.position⟩
  | [] => .error ⟨"PARSE_ERROR", "Expected variable name", "", none⟩

/-- `Parser.parse` (`src/parser.ts` lines 101-110): expression then no
trailing tokens before `EOF`. -/
def parserParse (maxIntervalAmount : Nat) (tokens : List Token) : Except ParseError ASTNode :=
  match parsePrimary tokens with
  | .error e => .error e
  | .ok (node, rest) =>
      match parseOps maxIntervalAmount node rest with
      | .error e => .error e
      | .ok (node2, rest2) =>
          match rest2 with
          | Token.mk TokenType.EOF _ _ :: _ => .ok node2
          | t :: _ => .error ⟨"PARSE_ERROR", "Unexpected tokens after expression",
              t.value, some t.position⟩
          | [] => .ok node2

/-- `parse` from `src/parser.ts` (lines 215-254): raw-length limit before
tokenizing, then tokenize and parse; thrown tokenizer errors surface as a
generic `PARSE_ERROR` whose token is the whole expression. -/
def parse (expression : String) (maxExpressionLength maxIntervalAmount : Nat) :
    Except ParseError ASTNode :=
  if expression.length > maxExpressionLength then
    .error ⟨"EXPRESSION_TOO_LONG", "Expression exceeds maximum length of "
      ++ natToString maxExpressionLength ++ " characters", expression, none⟩
  else
    match tokenize expression with
    | .error msg => .error ⟨"PARSE_ERROR", msg, expression, none⟩
    | .ok tokens => parserParse maxIntervalAmount tokens

example : parse "MY_DATE + 2 days" 200 10000
    = .ok (.date_arithmetic (.var_ref "MY_DATE") Operator.plus 2 TimeUnit.days) := by
  decide

example : (parse "my_date + 2 days" 200 10000).isOk = false := by decide

/-- Every `date_arithmetic` node in the tree carries a strictly positive
amount. -/
def astAmountsPositive : ASTNode → Bool
  | .var_ref _ => true
  | .date_arithmetic b _ amt _ => decide (0 < amt) && astAmountsPositive b

theorem parseOps_amounts_pos (max : Nat) (node : ASTNode) (ts : List Token) :
    astAmountsPositive node = true →
    ∀ r ts2, parseOps max node ts = .ok (r, ts2) → astAmountsPositive r = true := by
  induction node, ts using parseOps.induct max
  all_goals intro h r ts2 hp
  case case1 =>
      rename_i hop
      unfold parseOps at hp
      rw [if_pos hop] at hp
      exact absurd hp (by simp)
  case case2 =>
      rename_i hop nv npos rest2 hnan
      unfold parseOps at hp
      rw [if_neg hop] at hp
      try simp only [] at hp
      rw [hnan] at hp
      exact absurd hp (by simp)
  case case3 =>
      rename_i hop nv npos rest2 neg hinf
      unfold parseOps at hp
      rw [if_neg hop] at hp
      try simp only [] at hp
      rw [hinf] at hp
      exact absurd hp (by simp)
  case case4 =>
      rename_i hop nv npos rest2 amount hfin hle
      unfold parseOps at hp
      rw [if_neg hop] at hp
      try simp only [] at hp
      rw [hfin] at hp
      try simp only [] at hp
      rw [if_pos hle] at hp
      exact absurd hp (by simp)
  case case5 =>
      rename_i hop nv npos rest2 amount hfin hle hlt
      unfold parseOps at hp
      rw [if_neg hop] at hp
      try simp only [] at hp
      rw [hfin] at hp
      try simp only [] at hp
      rw [if_neg hle, if_pos hlt] at hp
      exact absurd hp (by simp)
  case case6 =>
      rename_i hop nv npos amount hfin hle hlt uv upos rest3 hu
      unfold parseOps at hp
      rw [if_neg hop] at hp
      try simp only [] at hp
      rw [hfin] at hp
      try simp only [] at hp
      rw [if_neg hle, if_neg hlt] at hp
      try simp only [] at hp
      rw [if_pos hu] at hp
      exact absurd hp (by simp)
  case case7 =>
      rename_i hop nv npos amount hfin hle hlt uv upos rest3 hu ih
      unfold parseOps at hp
      rw [if_neg hop] at hp
      try simp only [] at hp
      rw [hfin] at hp
      try simp only [] at hp
      rw [if_neg hle, if_neg hlt] at hp
      try simp only [] at hp
      rw [if_neg hu] at hp
      exact ih (by simp [astAmountsPositive, h]; omega) r ts2 hp
  case case8 =>
      rename_i hop nv npos amount hfin hle hlt t tail hnu
      obtain ⟨ty, tv, tp⟩ := t
      unfold parseOps at hp
      rw [if_neg hop] at hp
      try simp only [] at hp
      rw [hfin] at hp
      try simp only [] at hp
      rw [if_neg hle, if_neg hlt] at hp
      cases ty
      case UNIT => exact (hnu tv tp rfl).elim
      all_goals try simp only [] at hp
      all_goals exact absurd hp (by simp)
  case case9 =>
      rename_i hop nv npos amount hfin hle hlt
      unfold parseOps at hp
      rw [if_neg hop] at hp
      try simp only [] at hp
      rw [hfin] at hp
      try simp only [] at hp
      rw [if_neg hle, if_neg hlt] at hp
      exact absurd hp (by simp)
  case case10 =>
      rename_i hop t tail hnn
      obtain ⟨ty, tv, tp⟩ := t
      unfold parseOps at hp
      rw [if_neg hop] at hp
      cases ty
      case NUMBER => exact (hnn tv tp rfl).elim
      all_goals try simp only [] at hp
      all_goals exact absurd hp (by simp)
  case case11 =>
      rename_i hop
      unfold parseOps at hp
      rw [if_neg hop] at hp
      exact absurd hp (by simp)
  case case12 =>
      rename_i node1 ts1 hns
      rcases ts1 with _ | ⟨⟨ty, tv, tp⟩, rest⟩
      · injection hp with hpq
        injection hpq with h1 h2
        rw [← h1]
        exact h
      · cases ty
        case OPERATOR => exact (hns tv tp rest rfl).elim
        all_goals injection hp with hpq
        all_goals injection hpq with h1 h2
        all_goals rw [← h1]
        all_goals exact h

theorem parsePrimary_pos (ts : List Token) (node : ASTNode) (rest : List Token)
    (h : parsePrimary ts = .ok (node, rest)) : astAmountsPositive node = true := by
  rcases ts with _ | ⟨⟨ty, v, p⟩, r⟩
  · simp [parsePrimary] at h
  · cases ty <;> simp [parsePrimary] at h
    simp [← h.1, astAmountsPositive]

theorem parse_amounts_pos (e : String) (maxLen maxAmt : Nat) (ast : ASTNode)
    (hp : parse e maxLen maxAmt = .ok ast) : astAmountsPositive ast = true := by
  unfold parse at hp
  split_ifs at hp
  rcases htok : tokenize e with msg | toks <;> rw [htok] at hp
  · simp at hp
  simp only [] at hp
  unfold parserParse at hp
  rcases hpr : parsePrimary toks with err | ⟨node, rest⟩ <;> rw [hpr] at hp
  · simp at hp
  simp only [] at hp
  rcases hops : parseOps maxAmt node rest with err2 | ⟨node2, rest2⟩ <;> rw [hops] at hp
  · simp at hp
  simp only [] at hp
  have hnode2 := parseOps_amounts_pos maxAmt node rest (parsePrimary_pos toks node rest hpr)
    node2 rest2 hops
  rcases rest2 with _ | ⟨⟨ty, v, p⟩, r⟩
  · simp at hp
    rwa [← hp]
  · cases ty <;> simp at hp <;> try rwa [← hp]

/-- The error code of a parse outcome, if it failed. -/
def errorCode : Except ParseError ASTNode → Option String
  | .error e => some e.code
  | .ok _ => none

/-- C5: an operator followed by a zero amount, a negative-looking amount, a
non-numeric interval, a missing unit, an unrecognized operator or an
unrecognized unit spelling all fail with a `PARSE_ERROR` result; a
successful parse never contains a zero or negative interval amount. -/
theorem C5_parse_rejects_invalid_intervals :
    (∀ (e : String) (maxLen maxAmt : Nat) (ast : ASTNode),
        parse e maxLen maxAmt = .ok ast → astAmountsPositive ast = true) ∧
    errorCode (parse "A + 0 days" 200 10000) = some "PARSE_ERROR" ∧
    errorCode (parse "A + -5 days" 200 10000) = some "PARSE_ERROR" ∧
    errorCode (parse "A + x days" 200 10000) = some "PARSE_ERROR" ∧
    errorCode (parse "A + 5" 200 10000) = some "PARSE_ERROR" ∧
    errorCode (parse "A * 5 days" 200 10000) = some "PARSE_ERROR" ∧
    errorCode (parse "A + 5 dayz" 200 10000) = some "PARSE_ERROR" :=
  ⟨parse_amounts_pos, by decide, by decide, by decide, by decide, by decide, by decide⟩

/-- Witness for C5: a well-formed expression parses with positive amounts. -/
theorem C5_parse_rejects_invalid_intervals_witness :
    astAmountsPositive
      (ASTNode.date_arithmetic (ASTNode.var_ref "A") Operator.plus 2 TimeUnit.days) = true :=
  C5_parse_rejects_invalid_intervals.1 "A + 2 days" 200 10000
    (ASTNode.date_arithmetic (ASTNode.var_ref "A") Operator.plus 2 TimeUnit.days)
    (by decide)

/-! ## Tokenizer scan lemmas -/

theorem takeWhile_append_all {α : Type} (p : α → Bool) (l r : List α)
    (h : ∀ c ∈ l, p c = true) : (l ++ r).takeWhile p = l ++ r.takeWhile p := by
  induction l with
  | nil => simp
  | cons c cs ih =>
      simp [List.takeWhile_cons, h c (by simp), ih (fun x hx => h x (by simp [hx]))]

theorem dropWhile_append_all {α : Type} (p : α → Bool) (l r : List α)
    (h : ∀ c ∈ l, p c = true) : (l ++ r).dropWhile p = r.dropWhile p := by
  induction l with
  | nil => simp
  | cons c cs ih =>
      simp [List.dropWhile_cons, h c (by simp), ih (fun x hx => h x (by simp [hx]))]

/-- Hexadecimal digit value, if any. -/
def hexVal (c : Char) : Option Nat :=
  if c.isDigit then some (digitVal c)
  else if 'a' ≤ c ∧ c ≤ 'f' then some (c.toNat - 87)
  else if 'A' ≤ c ∧ c ≤ 'F' then some (c.toNat - 55)
  else none

/-- Value of a digit list in base `b`, when every digit is below `b`. -/
def baseVal (b : Nat) (digits : List Nat) : Nat :=
  digits.foldl (fun a d => b * a + d) 0

/-- The exponent suffix `[eE][+-]?digits` of a decimal literal, applied to
the mantissa. -/
def applyExponent (v : ℚ) (cs : List Char) : Option ℚ :=
  match cs with
  | [] => some v
  | e :: r =>
      if e = 'e' ∨ e = 'E' then
        let (sgn, r2) : Int × List Char :=
          match r with
          | '+' :: r2 => (1, r2)
          | '-' :: r2 => (-1, r2)
          | r2 => (1, r2)
        if r2 ≠ [] ∧ r2.all Char.isDigit ∧ r2.dropWhile Char.isDigit = [] then
          let ex := natOfDigits r2
          some (if sgn = 1 then v * (10 : ℚ) ^ ex else v / (10 : ℚ) ^ ex)
        else none
      else none

/-- Unsigned decimal literal `digits[.digits][exp]` or `.digits[exp]`. -/
def decimalLit (cs : List Char) : Option ℚ :=
  let ip := cs.takeWhile Char.isDigit
  let r1 := cs.dropWhile Char.isDigit
  match r1 with
  | '.' :: r2 =>
      let fp := r2.takeWhile Char.isDigit
      let r3 := r2.dropWhile Char.isDigit
      if ip = [] ∧ fp = [] then none
      else applyExponent ((natOfDigits ip : ℚ) + (natOfDigits fp : ℚ) / (10 : ℚ) ^ fp.length) r3
  | _ => if ip = [] then none else applyExponent (natOfDigits ip : ℚ) r1

/-- A JS number as the resolver observes it: `NaN`, a signed Infinity, or a
finite value.  Finite values are kept as exact rationals rather than
float64-rounded: rounding changes neither NaN-ness nor finiteness except
at overflow, which `toJsFinite` classifies, and no claim observes the
decimal digits of a finite non-integral value. -/
inductive JsNumber
  | nan
  | posInf
  | negInf
  | finite (q : ℚ)
deriving DecidableEq

/-- Overflow classification of a finite mathematical value: float64
round-to-nearest sends every magnitude `≥ 2^1024 − 2^970` to a signed
Infinity. -/
def toJsFinite (q : ℚ) : JsNumber :=
  if ((Nat.pow 2 1024 - Nat.pow 2 970 : Nat) : ℚ) ≤ q then .posInf
  else if q ≤ -((Nat.pow 2 1024 - Nat.pow 2 970 : Nat) : ℚ) then .negInf
  else .finite q

/-- Unary minus on a JS number. -/
def jsNeg : JsNumber → JsNumber
  | .nan => .nan
  | .posInf => .negInf
  | .negInf => .posInf
  | .finite q => .finite (-q)

/-- An unsigned `StrUnsignedDecimalLiteral`: the `Infinity` literal or a
decimal literal. -/
def unsignedNumber (cs : List Char) : JsNumber :=
  if cs = "Infinity".data then .posInf
  else
    match decimalLit cs with
    | some q => toJsFinite q
    | none => .nan

/-- JS `Number(value)` (`JsNumber.nan` models `NaN`): whitespace-trimmed;
empty is 0; hex/octal/binary integer literals (unsigned only, as in JS);
otherwise an optionally signed decimal literal or `Infinity`. -/
def jsNumber (value : String) : JsNumber :=
  match trimChars value.data with
  | [] => .finite 0
  | '0' :: x :: rest =>
      if x = 'x' ∨ x = 'X' then
        if rest ≠ [] ∧ (rest.map hexVal).all Option.isSome then
          toJsFinite ((baseVal 16 (rest.map (fun c => (hexVal c).getD 0)) : Nat) : ℚ)
        else .nan
      else if x = 'o' ∨ x = 'O' then
        if rest ≠ [] ∧ rest.all (fun c => '0' ≤ c ∧ c ≤ '7') then
          toJsFinite ((baseVal 8 (rest.map digitVal) : Nat) : ℚ)
        else .nan
      else if x = 'b' ∨ x = 'B' then
        if rest ≠ [] ∧ rest.all (fun c => c = '0' ∨ c = '1') then
          toJsFinite ((baseVal 2 (rest.map digitVal) : Nat) : ℚ)
        else .nan
      else unsignedNumber ('0' :: x :: rest)
  | '+' :: r => unsignedNumber r
  | '-' :: r => jsNeg (unsignedNumber r)
  | cs => unsignedNumber cs

/-- `TypedValue` from `src/types.ts`: tagged date / number / string value. -/
inductive TypedValue
  | date (value : Int)
  | num (value : JsNumber)
  | str (value : String)
deriving DecidableEq

/-- JS `name in obj` on the user context (modelled as an association list
whose keys are unique, first binding winning on lookup). -/
def ctxHas (ctx : List (String × String)) (name : String) : Bool :=
  ctx.any (fun p => p.1 == name)

/-- JS `obj[name]` on the user context. -/
def ctxGet (ctx : List (String × String)) (name : String) : String :=
  ((ctx.find? (fun p => p.1 == name)).map Prod.snd).getD ""

/-- `DEFAULT_SYSTEM_VARIABLES`: the `DATE` provider, returning the current
date (`getCurrentDate` is modelled by its result `today`, a day number). -/
def DEFAULT_SYSTEM_VARIABLES (today : Int) : List (String × Int) :=
  [("DATE", today)]

/-- The constructor's `{ ...DEFAULT_SYSTEM_VARIABLES, ...systemVariables }`:
custom providers override the defaults, so on a first-match association list
the custom bindings come first. -/
def mkSystemVariables (custom : List (String × Int)) (today : Int) : List (String × Int) :=
  custom ++ DEFAULT_SYSTEM_VARIABLES today

/-- `VariableResolver.resolveUserVariable`: type inference for a user-context
value — date if `parseDate` succeeds, else number if `Number(value)` is not
NaN and the trimmed value is nonempty, else string. -/
def resolveUserVariable (userContext : List (String × String)) (name : String) :
    Option TypedValue :=
  let value := ctxGet userContext name
  match parseDate value with
  | some d => some (.date d)
  | none =>
      if jsNumber value ≠ JsNumber.nan ∧ trimChars value.data ≠ [] then
        some (.num (jsNumber value))
      else some (.str value)

/-- `VariableResolver.resolveSystemVariable`: only `DATE` is answered, and
only when the merged map has a `DATE` provider. -/
def resolveSystemVariable (systemVariables : List (String × Int)) (name : String) :
    Option TypedValue :=
  if name = "DATE" then
    match systemVariables.find? (fun p => p.1 == "DATE") with
    | some p => some (.date p.2)
    | none => none
  else none

/-- `VariableResolver.resolve`: user context first, then system variables,
else `null`. `systemVariables` is the merged map built in the constructor. -/
def VariableResolver.resolve (userContext : List (String × String))
    (systemVariables : List (String × Int)) (name : String) : Option TypedValue :=
  if ctxHas userContext name then resolveUserVariable userContext name
  else if systemVariables.any (fun p => p.1 == name) then
    resolveSystemVariable systemVariables name
  else none

/-! ## Source `evaluator.ts` -/

/-- `EvaluationError` from `src/types.ts`. -/
structure EvaluationError where
  code : String
  message : String
  token : String
deriving DecidableEq

/-- Spelling of an `Operator` as in the source AST. -/
def operatorString : Operator → String
  | .plus => "+"
  | .minus => "-"

/-- Spelling of a `TimeUnit` as in the source AST (the parser stores the
token text; every valid unit string maps to itself, we store canonical
singular/plural pairs — claims never inspect this field, only `astJson`
uses it). -/
def timeUnitString : TimeUnit → String
  | .day => "day" | .days => "days"
  | .week => "week" | .weeks => "weeks"
  | .month => "month" | .months => "months"
  | .year => "year" | .years => "years"

/-- `JSON.stringify(node)` for the AST shapes built by the parser (field
order follows the object literals in `parser.ts`). -/
def astJson : ASTNode → String
  | .var_ref name =>
      "\x7b\"type\":\"var_ref\",\"name\":\"" ++ name ++ "\"\x7d"
  | .date_arithmetic base op amount unit =>
      "\x7b\"type\":\"date_arithmetic\",\"base\":" ++ astJson base
        ++ ",\"operator\":\"" ++ operatorString op
        ++ "\",\"amount\":" ++ intToString amount
        ++ ",\"unit\":\"" ++ timeUnitString unit ++ "\"\x7d"

/-- `Evaluator.evaluate` (with `evaluateVarRef` / `evaluateDateArithmetic`
inlined): thrown `EvaluationError`s become `Except.error`. -/
def Evaluator.evaluate (userContext : List (String × String))
    (systemVariables : List (String × Int)) :
    ASTNode → Except EvaluationError TypedValue
  | .var_ref name =>
      match VariableResolver.resolve userContext systemVariables name with
      | some v => .ok v
      | none =>
          .error ⟨"UNDEFINED_VARIABLE",
            "Variable \x27" ++ name ++ "\x27 is not defined", name⟩
  | .date_arithmetic base op amount unit =>
      match Evaluator.evaluate userContext systemVariables base with
      | .error e => .error e
      | .ok bv =>
          match bv with
          | .date z => .ok (.date (addToDate z amount unit op))
          | .num q =>
              .error ⟨"TYPE_ERROR", "Cannot perform date arithmetic on number value",
                astJson (.date_arithmetic base op amount unit)⟩
          | .str s =>
              .error ⟨"TYPE_ERROR", "Cannot perform date arithmetic on string value",
                astJson (.date_arithmetic base op amount unit)⟩

/-- JS `String(...)` on a number value: `NaN` / `Infinity` / `-Infinity`
literally; an integral finite value via the float64 integer printer; the
decimal rendering of a non-integral finite value is not modelled (no claim
observes it) and is printed as `num/den`. -/
def numToString : JsNumber → String
  | .nan => "NaN"
  | .posInf => "Infinity"
  | .negInf => "-Infinity"
  | .finite q =>
      if q.den = 1 then jsIntToString q.num
      else intToString q.num ++ "/" ++ natToString q.den

/-- Top-level `evaluate` from `evaluator.ts`: build the evaluator over the
merged system-variable map, run it, and convert the typed result to a
string (`date` via `formatDate`, `number` via `String(...)`, `string`
verbatim). `today` stands for `getCurrentDate()`. -/
def evaluate (ast : ASTNode) (context : List (String × String))
    (systemVariables : List (String × Int)) (today : Int) :
    Except EvaluationError String :=
  match Evaluator.evaluate context (mkSystemVariables systemVariables today) ast with
  | .error e => .error e
  | .ok v =>
      match v with
      | .date z => .ok (formatDate z)
      | .num q => .ok (numToString q)
      | .str s => .ok s

/-- C7: a name present in the user context is resolved from the user
context, independently of the system-variable map; the user value is typed
by trying `parseDate` first, then `Number(...)` (numeric iff the conversion
is not NaN and the trimmed string is nonempty), else string. -/
theorem C7_user_shadowing_and_inference
    (ctx : List (String × String)) (sys : List (String × Int)) (name : String)
    (hin : ctxHas ctx name = true) :
    VariableResolver.resolve ctx sys name = resolveUserVariable ctx name
    ∧ (∀ sys2, VariableResolver.resolve ctx sys name
        = VariableResolver.resolve ctx sys2 name)
    ∧ (∀ d, parseDate (ctxGet ctx name) = some d →
        VariableResolver.resolve ctx sys name = some (.date d))
    ∧ (parseDate (ctxGet ctx name) = none →
        jsNumber (ctxGet ctx name) ≠ JsNumber.nan →
        trimChars (ctxGet ctx name).data ≠ [] →
        VariableResolver.resolve ctx sys name
          = some (.num (jsNumber (ctxGet ctx name))))
    ∧ (parseDate (ctxGet ctx name) = none →
        (jsNumber (ctxGet ctx name) = JsNumber.nan ∨ trimChars (ctxGet ctx name).data = []) →
        VariableResolver.resolve ctx sys name = some (.str (ctxGet ctx name))) := by
  have hres : VariableResolver.resolve ctx sys name = resolveUserVariable ctx name := by
    simp [VariableResolver.resolve, hin]
  refine ⟨hres, ?_, ?_, ?_, ?_⟩
  · intro sys2
    rw [hres]
    simp [VariableResolver.resolve, hin]
  · intro d hd
    rw [hres]
    simp [resolveUserVariable, hd]
  · intro hpd hq htrim
    rw [hres]
    simp [resolveUserVariable, hpd, hq, htrim]
  · intro hpd hcase
    rw [hres]
    rcases hcase with hq | htrim
    · simp [resolveUserVariable, hpd, hq]
    · simp [resolveUserVariable, hpd, htrim]

theorem C7_user_shadowing_and_inference_witness :
    ctxHas [("DATE", "2025-01-01")] "DATE" = true
    ∧ parseDate "2025-01-01" = some (dayFromCivil 2025 1 1)
    ∧ VariableResolver.resolve [("DATE", "2025-01-01")] [("DATE", (99 : Int))] "DATE"
        = some (TypedValue.date (dayFromCivil 2025 1 1))
    ∧ jsNumber "Infinity" = JsNumber.posInf
    ∧ VariableResolver.resolve [("X", "Infinity")] [] "X"
        = some (TypedValue.num JsNumber.posInf) :=
  ⟨by decide, by decide,
    (C7_user_shadowing_and_inference [("DATE", "2025-01-01")] [("DATE", (99 : Int))]
        "DATE" (by decide)).2.2.1 (dayFromCivil 2025 1 1) (by decide),
    by decide,
    ((C7_user_shadowing_and_inference [("X", "Infinity")] [] "X"
        (by decide)).2.2.2.1 (by decide) (by decide) (by decide)).trans (by decide)⟩

/-- C10: a name other than `"DATE"` that is absent from the user context
resolves to `none` even when the merged system-variable map binds that name
to a provider; evaluating a reference to that name therefore yields an
`UNDEFINED_VARIABLE` error. -/
theorem C10_non_date_system_names_unresolved
    (ctx : List (String × String)) (custom : List (String × Int)) (today : Int)
    (name : String) (d0 : Int)
    (hname : name ≠ "DATE") (hctx : ctxHas ctx name = false)
    (hprov : (mkSystemVariables custom today).find? (fun p => p.1 == name)
        = some (name, d0)) :
    VariableResolver.resolve ctx (mkSystemVariables custom today) name = none
    ∧ evaluate (.var_ref name) ctx custom today
        = .error ⟨"UNDEFINED_VARIABLE",
            "Variable \x27" ++ name ++ "\x27 is not defined", name⟩ := by
  have hres : VariableResolver.resolve ctx (mkSystemVariables custom today) name = none := by
    rw [VariableResolver.resolve]
    rw [if_neg (by simp [hctx])]
    rw [resolveSystemVariable, if_neg hname]
    split <;> rfl
  refine ⟨hres, ?_⟩
  simp [evaluate, Evaluator.evaluate, hres]

theorem C10_non_date_system_names_unresolved_witness :
    VariableResolver.resolve [] (mkSystemVariables [("TOMORROW", (7 : Int))] 0) "TOMORROW"
        = none
    ∧ evaluate (.var_ref "TOMORROW") [] [("TOMORROW", (7 : Int))] 0
        = .error ⟨"UNDEFINED_VARIABLE",
            "Variable \x27TOMORROW\x27 is not defined", "TOMORROW"⟩ :=
  C10_non_date_system_names_unresolved [] [("TOMORROW", (7 : Int))] 0 "TOMORROW" 7
    (by decide) (by decide) (by decide)

/-! ## Source `expression-engine.ts` -/

/-- The full text of a `\x7b\x7b...\x7d\x7d` token with inner text `inner`
(the regex match `match[0]`). -/
def tokenChars (inner : List Char) : List Char :=
  '{' :: '{' :: (inner ++ ['}', '}'])

/-- One attempt of the token regex `/\x5c\x7b\x5c\x7b([^}]+)\x5c\x7d\x5c\x7d/`
at the head of `cs`: two `\x7b`, then a maximal nonempty run of
non-`\x7d` characters, then `\x7d\x7d`.  Returns the captured inner text
and the remainder after the match. -/
def matchToken (cs : List Char) : Option (List Char × List Char) :=
  match cs with
  | '{' :: '{' :: body =>
      if body.takeWhile (fun c => c != '}') = [] then none
      else
        match body.dropWhile (fun c => c != '}') with
        | '}' :: '}' :: rest => some (body.takeWhile (fun c => c != '}'), rest)
        | _ => none
  | _ => none

/-- The body of the `text.replace` callback in `processText`: trim the inner
text, `parse` it (a parse error is re-wrapped with the whole matched token
as `token`), then `evaluate` the AST. -/
def processExpression (maxLen maxAmt : Nat) (sys : List (String × Int)) (today : Int)
    (ctx : List (String × String)) (inner : List Char) : Except EvaluationError String :=
  match parse (String.mk (trimChars inner)) maxLen maxAmt with
  | .error pe => .error ⟨pe.code, pe.message, String.mk (tokenChars inner)⟩
  | .ok ast => evaluate ast ctx sys today

/-- `processText`, fuelled: scan the text; at each position try the token
regex; on a match replace the token by the evaluated value, or keep it
verbatim and record one error; otherwise copy one character. -/
def processGo (maxLen maxAmt : Nat) (sys : List (String × Int)) (today : Int)
    (ctx : List (String × String)) : Nat → List Char → List Char × List EvaluationError
  | 0, cs => (cs, [])
  | fuel + 1, cs =>
      match matchToken cs with
      | some (inner, rest) =>
          let r := processGo maxLen maxAmt sys today ctx fuel rest
          match processExpression maxLen maxAmt sys today ctx inner with
          | .error e => (tokenChars inner ++ r.1, e :: r.2)
          | .ok val => (val.data ++ r.1, r.2)
      | none =>
          match cs with
          | [] => ([], [])
          | c :: cs2 =>
              let r := processGo maxLen maxAmt sys today ctx fuel cs2
              (c :: r.1, r.2)

/-- `ExpressionEngine.processText`: replace every matched token, collecting
errors.  `maxLen`, `maxAmt`, `sys` are the engine options
(`maxExpressionLength`, `maxIntervalAmount`, `systemVariables`); `today`
models `getCurrentDate()`. -/
def processText (text : String) (ctx : List (String × String))
    (maxLen maxAmt : Nat) (sys : List (String × Int)) (today : Int) :
    String × List EvaluationError :=
  let r := processGo maxLen maxAmt sys today ctx (text.data.length + 1) text.data
  (String.mk r.1, r.2)

/-- `extractExpressions`, fuelled: the same scan, collecting `match[0]` of
every token occurrence. -/
def extractGo : Nat → List Char → List String
  | 0, _ => []
  | fuel + 1, cs =>
      match matchToken cs with
      | some (inner, rest) => String.mk (tokenChars inner) :: extractGo fuel rest
      | none =>
          match cs with
          | [] => []
          | _ :: cs2 => extractGo fuel cs2

/-- `ExpressionEngine.extractExpressions`. -/
def extractExpressions (text : String) : List String :=
  extractGo (text.data.length + 1) text.data

/-! Reference decomposition of a text into literal characters and token
occurrences, used to state what `processText` and `extractExpressions` do
to each occurrence. -/

/-- A segment of the scanned text: a literal character or a token
occurrence with the given inner text. -/
inductive Seg
  | lit (c : Char)
  | tok (inner : List Char)
deriving DecidableEq

/-- The characters a segment came from. -/
def segChars : Seg → List Char
  | .lit c => [c]
  | .tok inner => tokenChars inner

/-- The segment decomposition of a character list (fuelled like the
scanners). -/
def scanSegs : Nat → List Char → List Seg
  | 0, _ => []
  | fuel + 1, cs =>
      match matchToken cs with
      | some (inner, rest) => .tok inner :: scanSegs fuel rest
      | none =>
          match cs with
          | [] => []
          | c :: cs2 => .lit c :: scanSegs fuel cs2

/-- The segment decomposition of a text. -/
def segs (text : String) : List Seg :=
  scanSegs (text.data.length + 1) text.data

/-- What `processText` renders for one segment: a literal is copied; a
token is replaced by its value, or kept verbatim on error. -/
def renderSeg (maxLen maxAmt : Nat) (sys : List (String × Int)) (today : Int)
    (ctx : List (String × String)) : Seg → List Char
  | .lit c => [c]
  | .tok inner =>
      match processExpression maxLen maxAmt sys today ctx inner with
      | .ok val => val.data
      | .error _ => tokenChars inner

/-- The errors `processText` records for one segment: none for a literal
or a successful token, exactly one for a failing token. -/
def segErrors (maxLen maxAmt : Nat) (sys : List (String × Int)) (today : Int)
    (ctx : List (String × String)) : Seg → List EvaluationError
  | .lit _ => []
  | .tok inner =>
      match processExpression maxLen maxAmt sys today ctx inner with
      | .ok _ => []
      | .error e => [e]

/-- Concatenated rendering of a segment list. -/
def renderAll (maxLen maxAmt : Nat) (sys : List (String × Int)) (today : Int)
    (ctx : List (String × String)) (l : List Seg) : List Char :=
  l.foldr (fun s acc => renderSeg maxLen maxAmt sys today ctx s ++ acc) []

/-- Concatenated error lists of a segment list. -/
def errorsAll (maxLen maxAmt : Nat) (sys : List (String × Int)) (today : Int)
    (ctx : List (String × String)) (l : List Seg) : List EvaluationError :=
  l.foldr (fun s acc => segErrors maxLen maxAmt sys today ctx s ++ acc) []

/-- The token occurrences of a segment list, as `extractExpressions`
returns them. -/
def toksOf (l : List Seg) : List String :=
  l.foldr (fun s acc => match s with
    | Seg.tok inner => String.mk (tokenChars inner) :: acc
    | Seg.lit _ => acc) []

theorem matchToken_some (cs inner rest : List Char)
    (h : matchToken cs = some (inner, rest)) :
    cs = tokenChars inner ++ rest ∧ inner ≠ [] := by
  rw [matchToken.eq_def] at h
  split at h
  · rename_i body
    split at h
    · exact absurd h (by simp)
    · rename_i hne
      split at h
      · rename_i rest2 heq
        have hid := List.takeWhile_append_dropWhile (p := fun c => c != '}') (l := body)
        injection h with h1
        injection h1 with hinner hrest
        subst hinner; subst hrest
        refine ⟨?_, hne⟩
        rw [heq] at hid
        have h2 : tokenChars (List.takeWhile (fun c => c != '}') body) ++ rest2
            = '{' :: '{' :: (List.takeWhile (fun c => c != '}') body ++ '}' :: '}' :: rest2) := by
          simp [tokenChars]
        rw [h2, hid]
      · exact absurd h (by simp)
  · exact absurd h (by simp)

theorem matchToken_some_length (cs inner rest : List Char)
    (h : matchToken cs = some (inner, rest)) :
    rest.length + 5 ≤ cs.length := by
  obtain ⟨hcs, hne⟩ := matchToken_some cs inner rest h
  have : 1 ≤ inner.length := by
    cases inner with
    | nil => exact absurd rfl hne
    | cons a l => simp
  subst hcs
  simp [tokenChars]
  omega

theorem scanSegs_flatten : ∀ fuel cs, cs.length < fuel →
    (scanSegs fuel cs).foldr (fun s acc => segChars s ++ acc) [] = cs := by
  intro fuel
  induction fuel with
  | zero => intro cs h; omega
  | succ n ih =>
      intro cs h
      simp only [scanSegs]
      cases hm : matchToken cs with
      | some p =>
          obtain ⟨inner, rest⟩ := p
          obtain ⟨hcs, _⟩ := matchToken_some cs inner rest hm
          have hlen := matchToken_some_length cs inner rest hm
          simp only [List.foldr_cons]
          rw [ih rest (by omega)]
          rw [hcs]
          rfl
      | none =>
          cases cs with
          | nil => simp
          | cons c cs2 =>
              simp only [List.foldr_cons]
              rw [ih cs2 (by simp at h; omega)]
              rfl

theorem processGo_eq (maxLen maxAmt : Nat) (sys : List (String × Int)) (today : Int)
    (ctx : List (String × String)) : ∀ fuel cs, cs.length < fuel →
    processGo maxLen maxAmt sys today ctx fuel cs
      = (renderAll maxLen maxAmt sys today ctx (scanSegs fuel cs),
         errorsAll maxLen maxAmt sys today ctx (scanSegs fuel cs)) := by
  intro fuel
  induction fuel with
  | zero => intro cs h; omega
  | succ n ih =>
      intro cs h
      simp only [processGo, scanSegs]
      cases hm : matchToken cs with
      | some p =>
          obtain ⟨inner, rest⟩ := p
          have hlen := matchToken_some_length cs inner rest hm
          simp only []
          rw [ih rest (by omega)]
          cases hp : processExpression maxLen maxAmt sys today ctx inner with
          | error e =>
              simp only [renderAll, errorsAll, List.foldr_cons]
              rw [renderSeg, segErrors, hp]
              simp
          | ok val =>
              simp only [renderAll, errorsAll, List.foldr_cons]
              rw [renderSeg, segErrors, hp]
              simp
      | none =>
          cases cs with
          | nil => simp [renderAll, errorsAll]
          | cons c cs2 =>
              simp only []
              rw [ih cs2 (by simp at h; omega)]
              simp only [renderAll, errorsAll, List.foldr_cons]
              rw [renderSeg, segErrors]
              simp

theorem extractGo_eq : ∀ fuel cs, extractGo fuel cs = toksOf (scanSegs fuel cs) := by
  intro fuel
  induction fuel with
  | zero => intro cs; rfl
  | succ n ih =>
      intro cs
      simp only [extractGo, scanSegs]
      cases hm : matchToken cs with
      | some p =>
          obtain ⟨inner, rest⟩ := p
          simp only []
          rw [ih rest]
          simp [toksOf]
      | none =>
          cases cs with
          | nil => rfl
          | cons c cs2 =>
              simp only []
              rw [ih cs2]
              simp [toksOf]

theorem matchToken_inner_no_brace (cs inner rest : List Char)
    (h : matchToken cs = some (inner, rest)) : ∀ c ∈ inner, (c != '}') = true := by
  rw [matchToken.eq_def] at h
  split at h
  · split at h
    · exact absurd h (by simp)
    · split at h
      · injection h with h1
        injection h1 with hinner hrest
        subst hinner
        intro c hc
        exact List.mem_takeWhile_imp (p := fun x => x != '}') hc
      · exact absurd h (by simp)
  · exact absurd h (by simp)

theorem matchToken_complete (inner rest : List Char) (hne : inner ≠ [])
    (hnb : ∀ c ∈ inner, (c != '}') = true) :
    matchToken (tokenChars inner ++ rest) = some (inner, rest) := by
  have hsh : tokenChars inner ++ rest = '{' :: '{' :: (inner ++ ('}' :: '}' :: rest)) := by
    simp [tokenChars]
  rw [hsh]
  simp only [matchToken]
  rw [takeWhile_append_all _ inner _ hnb, dropWhile_append_all _ inner _ hnb]
  have ht : List.takeWhile (fun c => c != '}') ('}' :: '}' :: rest) = [] := by simp
  have hd : List.dropWhile (fun c => c != '}') ('}' :: '}' :: rest) = '}' :: '}' :: rest := by
    simp
  rw [ht, hd]
  rw [if_neg (by simp [hne])]
  simp

/-- Is a segment a literal character (not a token occurrence)? -/
def isLit : Seg → Bool
  | .lit _ => true
  | .tok _ => false

theorem renderAll_of_lits (maxLen maxAmt : Nat) (sys : List (String × Int)) (today : Int)
    (ctx : List (String × String)) : ∀ (l : List Seg), (∀ s ∈ l, isLit s = true) →
    renderAll maxLen maxAmt sys today ctx l
      = l.foldr (fun s acc => segChars s ++ acc) [] := by
  intro l
  induction l with
  | nil => intro _; rfl
  | cons s l ih =>
      intro h
      cases s with
      | lit c =>
          simp only [renderAll, List.foldr_cons] at ih ⊢
          rw [ih (fun s hsl => h s (by simp [hsl]))]
          rfl
      | tok inner =>
          have := h (Seg.tok inner) (by simp)
          simp [isLit] at this

theorem errorsAll_of_lits (maxLen maxAmt : Nat) (sys : List (String × Int)) (today : Int)
    (ctx : List (String × String)) : ∀ (l : List Seg), (∀ s ∈ l, isLit s = true) →
    errorsAll maxLen maxAmt sys today ctx l = [] := by
  intro l
  induction l with
  | nil => intro _; rfl
  | cons s l ih =>
      intro h
      cases s with
      | lit c =>
          simp only [errorsAll, List.foldr_cons] at ih ⊢
          rw [ih (fun s hsl => h s (by simp [hsl]))]
          rfl
      | tok inner =>
          have := h (Seg.tok inner) (by simp)
          simp [isLit] at this

theorem processText_eq_segs (text : String) (ctx : List (String × String))
    (maxLen maxAmt : Nat) (sys : List (String × Int)) (today : Int) :
    processText text ctx maxLen maxAmt sys today
      = (String.mk (renderAll maxLen maxAmt sys today ctx (segs text)),
         errorsAll maxLen maxAmt sys today ctx (segs text)) := by
  simp only [processText, segs]
  rw [processGo_eq maxLen maxAmt sys today ctx (text.data.length + 1) text.data (by omega)]

theorem extractExpressions_eq_segs (text : String) :
    extractExpressions text = toksOf (segs text) :=
  extractGo_eq (text.data.length + 1) text.data

/-- C3: `processText` processes each token occurrence independently: the
output is the concatenation of the per-segment renderings and the error
list the concatenation of the per-segment error lists; a failing occurrence
is kept verbatim and contributes exactly one error; a text whose
decomposition has no token occurrence is returned unchanged with no errors;
and on `"\x7b\x7bVALID\x7d\x7d and \x7b\x7bINVALID\x7d\x7d"` with only
`VALID` bound, the first token is replaced by its value, the second kept,
with exactly one error. -/
theorem C3_processText_error_handling :
    (∀ text ctx maxLen maxAmt sys today,
        processText text ctx maxLen maxAmt sys today
          = (String.mk (renderAll maxLen maxAmt sys today ctx (segs text)),
             errorsAll maxLen maxAmt sys today ctx (segs text)))
    ∧ (∀ maxLen maxAmt sys today ctx inner e,
        processExpression maxLen maxAmt sys today ctx inner = .error e →
          renderSeg maxLen maxAmt sys today ctx (.tok inner) = tokenChars inner
          ∧ segErrors maxLen maxAmt sys today ctx (.tok inner) = [e])
    ∧ (∀ text ctx maxLen maxAmt sys today,
        (∀ s ∈ segs text, isLit s = true) →
        processText text ctx maxLen maxAmt sys today = (text, []))
    ∧ processText "\x7b\x7bVALID\x7d\x7d and \x7b\x7bINVALID\x7d\x7d"
        [("VALID", "2026-02-16")] 200 10000 [] 0
      = ("2026-02-16 and \x7b\x7bINVALID\x7d\x7d",
         [⟨"UNDEFINED_VARIABLE", "Variable \x27INVALID\x27 is not defined",
           "INVALID"⟩]) := by
  refine ⟨processText_eq_segs, ?_, ?_, by decide⟩
  · intro maxLen maxAmt sys today ctx inner e hp
    constructor
    · simp [renderSeg, hp]
    · simp [segErrors, hp]
  · intro text ctx maxLen maxAmt sys today h
    rw [processText_eq_segs]
    have hfl : (segs text).foldr (fun s acc => segChars s ++ acc) [] = text.data :=
      scanSegs_flatten (text.data.length + 1) text.data (by omega)
    rw [renderAll_of_lits maxLen maxAmt sys today ctx (segs text) h,
        errorsAll_of_lits maxLen maxAmt sys today ctx (segs text) h, hfl]

theorem C3_processText_error_handling_witness :
    (∀ s ∈ segs "plain text", isLit s = true)
    ∧ processText "plain text" [] 200 10000 [] 0 = ("plain text", []) :=
  ⟨by decide,
    C3_processText_error_handling.2.2.1 "plain text" [] 200 10000 [] 0 (by decide)⟩

/-- C9 (amended): a token occurrence is `\x7b\x7b` followed by a nonempty
run of non-`\x7d` characters followed by `\x7d\x7d` (hence non-greedy: the
inner text never contains `\x7d`, so the match ends at the first
`\x7d\x7d`); `extractExpressions` returns exactly the occurrences of the
segment decomposition; an occurrence with empty inner text, or whose inner
text would contain a lone `\x7d`, is NOT matched (contrary to the original
claim). -/
theorem C9_token_matching :
    (∀ text, extractExpressions text = toksOf (segs text))
    ∧ (∀ cs inner rest, matchToken cs = some (inner, rest) →
        cs = tokenChars inner ++ rest ∧ inner ≠ []
          ∧ ∀ c ∈ inner, (c != '}') = true)
    ∧ (∀ inner rest, inner ≠ [] → (∀ c ∈ inner, (c != '}') = true) →
        matchToken (tokenChars inner ++ rest) = some (inner, rest))
    ∧ extractExpressions "\x7b\x7bA + 1 day\x7d\x7d" = ["\x7b\x7bA + 1 day\x7d\x7d"] := by
  refine ⟨extractExpressions_eq_segs, ?_, matchToken_complete, by decide⟩
  intro cs inner rest h
  exact ⟨(matchToken_some cs inner rest h).1, (matchToken_some cs inner rest h).2,
    matchToken_inner_no_brace cs inner rest h⟩

theorem C9_token_matching_counterexample :
    extractExpressions "\x7b\x7b\x7d\x7d" = []
    ∧ extractExpressions "\x7b\x7bA\x7dB\x7d\x7d" = []
    ∧ processText "\x7b\x7b\x7d\x7d" [] 200 10000 [] 0 = ("\x7b\x7b\x7d\x7d", [])
    ∧ processText "\x7b\x7bA\x7dB\x7d\x7d" [] 200 10000 [] 0
        = ("\x7b\x7bA\x7dB\x7d\x7d", []) :=
  ⟨by decide, by decide, by decide, by decide⟩

theorem C9_token_matching_witness :
    matchToken (tokenChars "A".data ++ "\x7dtail".data)
      = some ("A".data, "\x7dtail".data) :=
  C9_token_matching.2.2.1 "A".data "\x7dtail".data (by decide) (by decide)
